import Mathlib

/-!
Shallow embedding of `aiohttp/_websocket/reader_py.py` (the incremental
WebSocket frame reader, protocol versions 13 and 8).

Bytes are modelled as `Nat` (values below 256 in real inputs), byte strings as
`List Nat`.  The reader object `WebSocketReader` becomes the structure
`Reader σ`, where `σ` is the state type of the (external) zlib decompressor;
stateful methods become functions returning the updated reader.  Exceptions
become `Option WSError` / `Except WSError` results.  The downstream
`DataQueue` sink is modelled by returning the list of messages fed to it and
the exception (if any) passed to `set_exception`.
-/

namespace WSReader

/-- A byte string: each element is one byte (0..255 in real inputs). -/
abbrev Bytes := List Nat

/-- `WebSocketError(close_code, message)` from `models.py` (not under `src/`);
modelled from the spec: "All errors are a single
`WebSocketError{ code: WSCloseCode, message: string }`". -/
structure WSError where
  code : Nat
  msg : String
deriving DecidableEq, Repr

/-- Close-code constants.  Modelled from the spec error taxonomy (section 7):
`PROTOCOL_ERROR (1002)`, `MESSAGE_TOO_BIG (1009)`, `INVALID_TEXT (1007)`
(`WSCloseCode` lives in `models.py`, which is not under `src/`). -/
def PROTOCOL_ERROR : Nat := 1002

def MESSAGE_TOO_BIG : Nat := 1009

def INVALID_TEXT : Nat := 1007

/-- `ALLOWED_CLOSE_CODES = {int(i) for i in WSCloseCode}`.  Modelled from the
spec: "`ALLOWED_CLOSE_CODES` is the concrete set
`{1000, 1001, 1002, 1003, 1007, 1008, 1009, 1010, 1011, 1012, 1013, 1014,
1015}`" (`WSCloseCode` lives in `models.py`, which is not under `src/`). -/
def ALLOWED_CLOSE_CODES : List Nat :=
  [1000, 1001, 1002, 1003, 1007, 1008, 1009, 1010, 1011, 1012, 1013, 1014, 1015]

/-- `WS_DEFLATE_TRAILING` from `models.py`; modelled from the spec:
"The 4 bytes `00 00 FF FF` are appended to the compressed payload before
inflation". -/
def WS_DEFLATE_TRAILING : Bytes := [0, 0, 255, 255]

/-- The messages fed to the sink (`WSMessageText` / `WSMessageBinary` /
`WSMessagePing` / `WSMessagePong` / `WSMessageClose` from `models.py`).
Decoded text is represented as its list of Unicode code points; the `extra`
field of text/binary/ping/pong messages is always `""` in the source. -/
inductive WSMessage where
  | text (data : List Nat) (extra : String)
  | binary (data : Bytes) (extra : String)
  | ping (data : Bytes) (extra : String)
  | pong (data : Bytes) (extra : String)
  | close (data : Nat) (extra : List Nat)
deriving DecidableEq, Repr

/-- The L1 parser states `READ_HEADER` / `READ_PAYLOAD_LENGTH` /
`READ_PAYLOAD_MASK` / `READ_PAYLOAD` (integers 1..4 in the source). -/
inductive PState where
  | header
  | length
  | mask
  | payload
deriving DecidableEq, Repr

/-- Rank used only for the termination measure of the parse loop. -/
def PState.rank : PState → Nat
  | .header => 0
  | .payload => 1
  | .mask => 2
  | .length => 4

theorem PState.rank_le (s : PState) : s.rank ≤ 4 := by
  cases s <;> simp [PState.rank]

/-- A raw frame record `(fin, opcode, payload, compressed)` as appended by
`parse_frame` (source line 360-362).  `opcode` and `compressed` carry the
`Optional` type of the corresponding reader fields. -/
structure Frame where
  fin : Bool
  opcode : Option Nat
  payload : Bytes
  compressed : Option Bool
deriving DecidableEq, Repr

/-- Interface of the external `ZLibDecompressor` (from
`compression_utils.py`, not under `src/`).  Modelled from the spec:
`decompress_sync(data, max_length)` inflates `data` with a decompressed-output
ceiling of `max_length` and reports an `unconsumed_tail` when the output would
have exceeded the ceiling.  `run state data maxLength` returns
`(new state, output, unconsumed_tail)`. -/
structure DecompSpec (σ : Type) where
  init : σ
  run : σ → Bytes → Nat → σ × Bytes × Bytes

/-- The `WebSocketReader` attributes read or written by `parse_frame` (and
by nothing else).  Field name map: `compress = _compress` (constant, set by
`__init__`), `state = _state`, `frameFin = _frame_fin`,
`frameOpcode = _frame_opcode`, `framePayload = _frame_payload`,
`tail = _tail`, `hasMask = _has_mask`, `frameMask = _frame_mask`,
`payloadLength = _payload_length`, `payloadLengthFlag = _payload_length_flag`,
`compressed = _compressed`. -/
structure ParseSt where
  compress : Bool
  state : PState
  frameFin : Bool
  frameOpcode : Option Nat
  framePayload : Bytes
  tail : Bytes
  hasMask : Bool
  frameMask : Option Bytes
  payloadLength : Nat
  payloadLengthFlag : Nat
  compressed : Option Bool
deriving DecidableEq

/-- The `WebSocketReader` attributes read or written by the `_feed_data`
frame loop (and by nothing else): `partialData = _partial`,
`msgOpcode = _opcode`, `decompressObj = _decompressobj`. -/
structure MsgSt (σ : Type) where
  partialData : Bytes
  msgOpcode : Option Nat
  decompressObj : Option σ
deriving DecidableEq

/-- The whole `WebSocketReader` state (source lines 49-72):
`maxMsgSize = _max_msg_size` (constant), `exc = _exc` (the error latch,
touched only by `feed_data`), plus the two field groups above. -/
structure Reader (σ : Type) where
  maxMsgSize : Nat
  exc : Option WSError
  parse : ParseSt
  msg : MsgSt σ
deriving DecidableEq

/-- `WebSocketReader.__init__(queue, max_msg_size, compress)`. -/
def mkReader (σ : Type) (maxMsgSize : Nat) (compress : Bool) : Reader σ where
  maxMsgSize := maxMsgSize
  exc := none
  parse := { compress := compress, state := .header, frameFin := false,
             frameOpcode := none, framePayload := [], tail := [], hasMask := false,
             frameMask := none, payloadLength := 0, payloadLengthFlag := 0,
             compressed := none }
  msg := { partialData := [], msgOpcode := none, decompressObj := none }

/-- Strict UTF-8 decoding to code points, as Python's
`bytes.decode("utf-8")`: rejects truncated sequences, bad continuation
bytes, overlong encodings, surrogates and code points above `U+10FFFF`.
Returns `none` exactly when Python raises `UnicodeDecodeError`. -/
def utf8Decode : Bytes → Option (List Nat)
  | [] => some []
  | b :: rest =>
    if b < 128 then (utf8Decode rest).map (fun cs => b :: cs)
    else if 194 ≤ b ∧ b ≤ 223 then
      match rest with
      | c1 :: rest2 =>
        if 128 ≤ c1 ∧ c1 ≤ 191 then
          (utf8Decode rest2).map (fun cs => ((b - 192) * 64 + (c1 - 128)) :: cs)
        else none
      | [] => none
    else if 224 ≤ b ∧ b ≤ 239 then
      match rest with
      | c1 :: c2 :: rest2 =>
        let lo1 := if b = 224 then 160 else 128
        let hi1 := if b = 237 then 159 else 191
        if (lo1 ≤ c1 ∧ c1 ≤ hi1) ∧ (128 ≤ c2 ∧ c2 ≤ 191) then
          (utf8Decode rest2).map
            (fun cs => ((b - 224) * 4096 + (c1 - 128) * 64 + (c2 - 128)) :: cs)
        else none
      | _ => none
    else if 240 ≤ b ∧ b ≤ 244 then
      match rest with
      | c1 :: c2 :: c3 :: rest2 =>
        let lo1 := if b = 240 then 144 else 128
        let hi1 := if b = 244 then 143 else 191
        if (lo1 ≤ c1 ∧ c1 ≤ hi1) ∧ (128 ≤ c2 ∧ c2 ≤ 191) ∧ (128 ≤ c3 ∧ c3 ≤ 191) then
          (utf8Decode rest2).map
            (fun cs =>
              ((b - 240) * 262144 + (c1 - 128) * 4096 + (c2 - 128) * 64 + (c3 - 128)) :: cs)
        else none
      | _ => none
    else none

/-- `websocket_mask(mask, data)` from `_websocket/helpers.py` (not under
`src/`); modelled from the spec: "unmasking is `payload[i] ^= key[i % 4]`". -/
def websocketMask (mask : Bytes) (data : Bytes) : Bytes :=
  (List.range data.length).zipWith (fun i b => b ^^^ mask.getD (i % 4) 0) data

/-- Big-endian fold; `UNPACK_LEN3` (`struct "!Q"`) from
`_websocket/helpers.py` (not under `src/`) is modelled from the spec:
"read 8 more bytes big-endian (unsigned 64-bit)". -/
def beFold (l : Bytes) : Nat := l.foldl (fun a b => a * 256 + b) 0

/-- The `READ_HEADER` block of `parse_frame` (source lines 246-308) applied to
the two header bytes `b0 b1`: bit extraction, reserved-bit / fragmented-control
/ control-size validation, the compression-continuity rule, and the commit of
the frame fields.  On success the parser state moves to `READ_PAYLOAD_LENGTH`.
The source's bit operations `(b >> k) & 1` and `b & (2^k - 1)` are written
arithmetically as `b / 2^k % 2` and `b % 2^k` (the same functions on `Nat`). -/
def processHeader (r : ParseSt) (b0 b1 : Nat) : Except WSError ParseSt :=
  let fin := b0 / 128 % 2
  let rsv1 := b0 / 64 % 2
  let rsv2 := b0 / 32 % 2
  let rsv3 := b0 / 16 % 2
  let opcode := b0 % 16
  if rsv2 ≠ 0 ∨ rsv3 ≠ 0 ∨ (rsv1 ≠ 0 ∧ ¬ r.compress) then
    .error ⟨PROTOCOL_ERROR, "Received frame with non-zero reserved bits"⟩
  else if opcode > 7 ∧ fin = 0 then
    .error ⟨PROTOCOL_ERROR, "Received fragmented control frame"⟩
  else
    let hasMask := b1 / 128 % 2
    let length := b1 % 128
    if opcode > 7 ∧ length > 125 then
      .error ⟨PROTOCOL_ERROR, "Control frame payload cannot be larger than 125 bytes"⟩
    else if r.frameFin ∨ r.compressed = none then
      .ok { r with
        compressed := some (rsv1 ≠ 0), frameFin := fin ≠ 0,
        frameOpcode := some opcode, hasMask := hasMask ≠ 0,
        payloadLengthFlag := length, state := .length }
    else if rsv1 ≠ 0 then
      .error ⟨PROTOCOL_ERROR, "Received frame with non-zero reserved bits"⟩
    else
      .ok { r with
        frameFin := fin ≠ 0, frameOpcode := some opcode, hasMask := hasMask ≠ 0,
        payloadLengthFlag := length, state := .length }

/-- The `while True` loop of `parse_frame` (source lines 244-364), written
over the not-yet-consumed suffix of the buffer instead of `start_pos`.
Returns the updated reader together with either the raised error or the list
of completed frames and the unconsumed leftover bytes (which `parse_frame`
stores as `_tail`).

The loop is driven by a fuel counter `n` so that it is structurally
recursive; one call of the source's `while` body corresponds to one state
step here.  Every step either consumes input bytes or strictly decreases
`PState.rank`, so `4 * buf.length + PState.rank + 1` steps always suffice
(`ploop` below passes that much; `ploopN_fuel` proves the fuel is
irrelevant beyond that bound, so the `0` case is dead code). -/
def ploopN : Nat → ParseSt → Bytes →
    ParseSt × Except WSError (List Frame × Bytes)
  | 0, r, buf => (r, .ok ([], buf))
  | n + 1, r, buf =>
  match r.state with
  | .header =>
    if 2 ≤ buf.length then
      match processHeader r (buf.getD 0 0) (buf.getD 1 0) with
      | .error e => (r, .error e)
      | .ok r1 => ploopN n r1 (buf.drop 2)
    else (r, .ok ([], buf))
  | .length =>
    if r.payloadLengthFlag = 126 then
      if 2 ≤ buf.length then
        ploopN n { r with payloadLength := buf.getD 0 0 * 256 + buf.getD 1 0,
                          state := if r.hasMask then .mask else .payload } (buf.drop 2)
      else (r, .ok ([], buf))
    else if r.payloadLengthFlag > 126 then
      if 8 ≤ buf.length then
        ploopN n { r with payloadLength := beFold (buf.take 8),
                          state := if r.hasMask then .mask else .payload } (buf.drop 8)
      else (r, .ok ([], buf))
    else
      ploopN n { r with payloadLength := r.payloadLengthFlag,
                        state := if r.hasMask then .mask else .payload } buf
  | .mask =>
    if 4 ≤ buf.length then
      ploopN n { r with frameMask := some (buf.take 4), state := .payload } (buf.drop 4)
    else (r, .ok ([], buf))
  | .payload =>
    if r.payloadLength ≥ buf.length then
      let r1 := { r with payloadLength := r.payloadLength - buf.length,
                         framePayload := r.framePayload ++ buf }
      if r1.payloadLength ≠ 0 then (r1, .ok ([], []))
      else
        let pl := if r1.hasMask then websocketMask (r1.frameMask.getD []) r1.framePayload
                  else r1.framePayload
        let fr : Frame := ⟨r1.frameFin, r1.frameOpcode, pl, r1.compressed⟩
        let r2 := { r1 with framePayload := [], state := .header }
        match ploopN n r2 [] with
        | (r3, .error e) => (r3, .error e)
        | (r3, .ok (fs, left)) => (r3, .ok (fr :: fs, left))
    else
      let r1 := { r with payloadLength := 0,
                         framePayload := r.framePayload ++ buf.take r.payloadLength }
      let pl := if r1.hasMask then websocketMask (r1.frameMask.getD []) r1.framePayload
                else r1.framePayload
      let fr : Frame := ⟨r1.frameFin, r1.frameOpcode, pl, r1.compressed⟩
      let r2 := { r1 with framePayload := [], state := .header }
      match ploopN n r2 (buf.drop r.payloadLength) with
      | (r3, .error e) => (r3, .error e)
      | (r3, .ok (fs, left)) => (r3, .ok (fr :: fs, left))

/-- The parse loop with its (always sufficient) fuel. -/
def ploop (r : ParseSt) (buf : Bytes) :
    ParseSt × Except WSError (List Frame × Bytes) :=
  ploopN (4 * buf.length + r.state.rank + 1) r buf

/-- `WebSocketReader.parse_frame(buf)` (source lines 233-368): prepend the
stored `_tail`, run the state-machine loop, and store the unconsumed leftover
back into `_tail` (on an error the `_tail` stays empty, as in the source where
the final `self._tail = buf[start_pos:]` is skipped by the raise). -/
def parseFrame (r : ParseSt) (buf : Bytes) :
    ParseSt × Except WSError (List Frame) :=
  match ploop { r with tail := [] } (r.tail ++ buf) with
  | (r1, .error e) => (r1, .error e)
  | (r1, .ok (fs, left)) => ({ r1 with tail := left }, .ok fs)

/-- Result of the message layer (the `_feed_data` frame loop) on one or
more frames: updated message-side state, messages fed to the sink (in
order), and the raised error, if any. -/
structure MStep (σ : Type) where
  msg : MsgSt σ
  msgs : List WSMessage
  err : Option WSError
deriving DecidableEq

/-- Error text of source lines 115-119 / 148-152. -/
def tooBigMsg (n m : Nat) : String := s!"Message size {n} exceeds limit {m}"

/-- Emission of a completed data message (source lines 176-194): UTF-8
validation for text, then the typed message. -/
def emitData (m : MsgSt σ) (eff : Nat) (payloadMerged : Bytes) : MStep σ :=
  if eff = 1 then
    match utf8Decode payloadMerged with
    | none => ⟨m, [], some ⟨INVALID_TEXT, "Invalid UTF-8 text message"⟩⟩
    | some cps => ⟨m, [WSMessage.text cps ""], none⟩
  else ⟨m, [WSMessage.binary payloadMerged ""], none⟩

/-- Finalization of a `fin` data frame (source lines 141-194): assemble
`_partial + payload`, size check, optional decompression, emission.  `eff` is
the effective opcode (after continuation resolution), `maxMsgSize` the
reader's constant `_max_msg_size`. -/
def finishData (D : DecompSpec σ) (maxMsgSize : Nat) (m : MsgSt σ) (f : Frame)
    (eff : Nat) (hasPartial : Bool) : MStep σ :=
  let m1 := if hasPartial then { m with partialData := [] } else m
  let assembled := if hasPartial then m.partialData ++ f.payload else f.payload
  if maxMsgSize ≠ 0 ∧ assembled.length ≥ maxMsgSize then
    ⟨m1, [], some ⟨MESSAGE_TOO_BIG, tooBigMsg assembled.length maxMsgSize⟩⟩
  else if f.compressed = some true then
    let obj := m1.decompressObj.getD D.init
    let res := D.run obj (assembled ++ WS_DEFLATE_TRAILING) maxMsgSize
    let m2 := { m1 with decompressObj := some res.1 }
    if res.2.2 = [] then emitData m2 eff res.2.1
    else
      let n := maxMsgSize + res.2.2.length
      ⟨m2, [], some ⟨MESSAGE_TOO_BIG,
        s!"Decompressed message size {n} exceeds limit {maxMsgSize}"⟩⟩
  else emitData m1 eff assembled

/-- The text/binary/continuation branch of `_feed_data` (source lines
106-194).  `op` is the frame opcode (0, 1 or 2). -/
def handleData (D : DecompSpec σ) (maxMsgSize : Nat) (m : MsgSt σ) (f : Frame)
    (op : Nat) : MStep σ :=
  if f.fin then
    let hasPartial := ! m.partialData.isEmpty
    if op = 0 then
      match m.msgOpcode with
      | none => ⟨m, [], some ⟨PROTOCOL_ERROR, "Continuation frame for non started message"⟩⟩
      | some eff => finishData D maxMsgSize { m with msgOpcode := none } f eff hasPartial
    else if hasPartial then
      ⟨m, [], some ⟨PROTOCOL_ERROR,
        s!"The opcode in non-fin frame is expected to be zero, got {op}"⟩⟩
    else finishData D maxMsgSize m f op hasPartial
  else
    let m1 := if op = 0 then m else { m with msgOpcode := some op }
    let m2 := { m1 with partialData := m1.partialData ++ f.payload }
    if maxMsgSize ≠ 0 ∧ m2.partialData.length ≥ maxMsgSize then
      ⟨m2, [], some ⟨MESSAGE_TOO_BIG, tooBigMsg m2.partialData.length maxMsgSize⟩⟩
    else ⟨m2, [], none⟩

/-- The close-frame branch of `_feed_data` (source lines 195-218).
`UNPACK_CLOSE_CODE` (`struct "!H"`, from `_websocket/helpers.py`, not under
`src/`) is modelled from the spec: "big-endian u16 close code from first two
bytes".  The source's error message for a 1-byte payload interpolates `fin`,
`opcode` and the payload repr; we keep a fixed text since no property depends
on it. -/
def handleClose (m : MsgSt σ) (f : Frame) : MStep σ :=
  match f.payload with
  | b0 :: b1 :: rest =>
    let closeCode := b0 * 256 + b1
    if closeCode < 3000 ∧ closeCode ∉ ALLOWED_CLOSE_CODES then
      ⟨m, [], some ⟨PROTOCOL_ERROR, s!"Invalid close code: {closeCode}"⟩⟩
    else
      match utf8Decode rest with
      | none => ⟨m, [], some ⟨INVALID_TEXT, "Invalid UTF-8 text message"⟩⟩
      | some cps => ⟨m, [WSMessage.close closeCode cps], none⟩
  | [_] => ⟨m, [], some ⟨PROTOCOL_ERROR, "Invalid close frame"⟩⟩
  | [] => ⟨m, [WSMessage.close 0 []], none⟩

/-- Dispatch on the opcode of one raw frame (`_feed_data` loop body, source
lines 100-231). -/
def handleFrame (D : DecompSpec σ) (maxMsgSize : Nat) (m : MsgSt σ) (f : Frame) :
    MStep σ :=
  match f.opcode with
  | none => ⟨m, [], some ⟨PROTOCOL_ERROR, "Unexpected opcode=None"⟩⟩
  | some op =>
    if op = 1 ∨ op = 2 ∨ op = 0 then handleData D maxMsgSize m f op
    else if op = 8 then handleClose m f
    else if op = 9 then ⟨m, [WSMessage.ping f.payload ""], none⟩
    else if op = 10 then ⟨m, [WSMessage.pong f.payload ""], none⟩
    else ⟨m, [], some ⟨PROTOCOL_ERROR, s!"Unexpected opcode={op}"⟩⟩

/-- The `for frame in self.parse_frame(data)` loop of `_feed_data`: process
frames in order, stopping at (and reporting) the first raised error. -/
def processFrames (D : DecompSpec σ) (maxMsgSize : Nat) :
    MsgSt σ → List Frame → MStep σ
  | m, [] => ⟨m, [], none⟩
  | m, f :: fs =>
    let s := handleFrame D maxMsgSize m f
    match s.err with
    | some e => ⟨s.msg, s.msgs, some e⟩
    | none =>
      let s2 := processFrames D maxMsgSize s.msg fs
      ⟨s2.msg, s.msgs ++ s2.msgs, s2.err⟩

/-- Result of `_feed_data` on the whole reader. -/
structure Step (σ : Type) where
  reader : Reader σ
  msgs : List WSMessage
  err : Option WSError
deriving DecidableEq

/-- `WebSocketReader._feed_data(data)` (source lines 98-231): parse the chunk
into frames, then process them.  When `parse_frame` raises, no frame of this
chunk is processed (the local `frames` list is discarded by the exception). -/
def feedDataAux (D : DecompSpec σ) (r : Reader σ) (data : Bytes) : Step σ :=
  match parseFrame r.parse data with
  | (p1, .error e) => ⟨{ r with parse := p1 }, [], some e⟩
  | (p1, .ok fs) =>
    let s := processFrames D r.maxMsgSize r.msg fs
    ⟨{ r with parse := p1, msg := s.msg }, s.msgs, s.err⟩

/-- Observable outcome of one `feed_data` call: updated reader, messages fed
to the sink, the error passed to `set_exception` (if any), and the returned
`(closed, leftover)` pair. -/
structure FeedOut (σ : Type) where
  reader : Reader σ
  msgs : List WSMessage
  sinkExc : Option WSError
  closed : Bool
  leftover : Bytes
deriving DecidableEq

/-- `WebSocketReader.feed_data(data)` (source lines 80-96).  A latched reader
returns `(True, data)` untouched; a newly raised error latches `_exc`, calls
`set_exception` on the sink, and returns `EMPTY_FRAME_ERROR = (True, b"")`;
success returns `EMPTY_FRAME = (False, b"")`. -/
def feedData (D : DecompSpec σ) (r : Reader σ) (data : Bytes) : FeedOut σ :=
  if r.exc.isSome then ⟨r, [], none, true, data⟩
  else
    match feedDataAux D r data with
    | ⟨r1, ms, some e⟩ => ⟨{ r1 with exc := some e }, ms, some e, true, []⟩
    | ⟨r1, ms, none⟩ => ⟨r1, ms, none, false, []⟩

/-- Outcome of feeding a list of chunks in order to the reader. -/
structure RunOut (σ : Type) where
  reader : Reader σ
  msgs : List WSMessage
  sinkExc : Option WSError
deriving DecidableEq

/-- Feed a list of chunks in order; collect all sink messages and the first
(and only possible) `set_exception` error. -/
def runChunks (D : DecompSpec σ) : Reader σ → List Bytes → RunOut σ
  | r, [] => ⟨r, [], none⟩
  | r, c :: cs =>
    let o := feedData D r c
    let rest := runChunks D o.reader cs
    ⟨rest.reader, o.msgs ++ rest.msgs,
      match o.sinkExc with
      | some e => some e
      | none => rest.sinkExc⟩

/-- Trivial decompressor instance (state `Unit`, output = input, no
unconsumed tail), used to evaluate concrete uncompressed scenarios. -/
def dUnit : DecompSpec Unit := ⟨(), fun s d _ => (s, d, [])⟩

/-! ### Fuel adequacy for the parse loop -/

theorem PState.rank_ite_le (b : Bool) :
    (if b then PState.mask else PState.payload).rank ≤ 2 := by
  cases b <;> simp [PState.rank]

/-- The fuel passed to `ploopN` is irrelevant as long as it exceeds
`4 * buf.length + r.state.rank`: the loop reaches a break, an error or the
end of the input before running out. -/
theorem ploopN_fuel : ∀ (n m : Nat) (r : ParseSt) (buf : Bytes),
    4 * buf.length + r.state.rank < n → 4 * buf.length + r.state.rank < m →
    ploopN n r buf = ploopN m r buf := by
  intro n
  induction n with
  | zero => intro m r buf hn; omega
  | succ n ih =>
    intro m r buf hn hm
    match m, hm with
    | m + 1, hm =>
      simp only [ploopN]
      cases hst : r.state with
      | header =>
        simp only [hst, PState.rank] at hn hm
        by_cases h2 : 2 ≤ buf.length
        · simp only [if_pos h2]
          cases hph : processHeader r (buf.getD 0 0) (buf.getD 1 0) with
          | error e => rfl
          | ok r1 =>
            have hr := PState.rank_le r1.state
            exact ih m r1 (buf.drop 2) (by simp [List.length_drop]; omega)
              (by simp [List.length_drop]; omega)
        · simp only [if_neg h2]
      | length =>
        simp only [hst, PState.rank] at hn hm
        by_cases hf : r.payloadLengthFlag = 126
        · simp only [if_pos hf]
          by_cases h2 : 2 ≤ buf.length
          · simp only [if_pos h2]
            have hr := PState.rank_ite_le r.hasMask
            exact ih m _ (buf.drop 2) (by simp [List.length_drop]; omega)
              (by simp [List.length_drop]; omega)
          · simp only [if_neg h2]
        · simp only [if_neg hf]
          by_cases hg : r.payloadLengthFlag > 126
          · simp only [if_pos hg]
            by_cases h8 : 8 ≤ buf.length
            · simp only [if_pos h8]
              have hr := PState.rank_ite_le r.hasMask
              exact ih m _ (buf.drop 8) (by simp [List.length_drop]; omega)
                (by simp [List.length_drop]; omega)
            · simp only [if_neg h8]
          · simp only [if_neg hg]
            have hr := PState.rank_ite_le r.hasMask
            exact ih m _ buf (by simp; omega) (by simp; omega)
      | mask =>
        simp only [hst, PState.rank] at hn hm
        by_cases h4 : 4 ≤ buf.length
        · simp only [if_pos h4]
          exact ih m _ (buf.drop 4) (by simp [List.length_drop, PState.rank]; omega)
            (by simp [List.length_drop, PState.rank]; omega)
        · simp only [if_neg h4]
      | payload =>
        simp only [hst, PState.rank] at hn hm
        by_cases hp : r.payloadLength ≥ buf.length
        · simp only [if_pos hp]
          by_cases h0 : r.payloadLength - buf.length ≠ 0
          · simp only [if_pos h0]
          · simp only [if_neg h0]
            rw [ih m _ [] (by simp [PState.rank]; omega) (by simp [PState.rank]; omega)]
        · simp only [if_neg hp]
          rw [ih m _ (buf.drop r.payloadLength)
            (by simp [List.length_drop, PState.rank]; omega)
            (by simp [List.length_drop, PState.rank]; omega)]

/-- `ploop` computes `ploopN` at any sufficient fuel. -/
theorem ploop_eq_ploopN (n : Nat) (r : ParseSt) (buf : Bytes)
    (h : 4 * buf.length + r.state.rank < n) : ploop r buf = ploopN n r buf :=
  ploopN_fuel _ n r buf (by omega) h

/-- One-step unfolding of `ploop`: the fuel is invisible and `ploop`
satisfies the defining equation of the source's `while` body. -/
theorem ploop_unfold (r : ParseSt) (buf : Bytes) :
    ploop r buf =
      match r.state with
      | .header =>
        if 2 ≤ buf.length then
          match processHeader r (buf.getD 0 0) (buf.getD 1 0) with
          | .error e => (r, .error e)
          | .ok r1 => ploop r1 (buf.drop 2)
        else (r, .ok ([], buf))
      | .length =>
        if r.payloadLengthFlag = 126 then
          if 2 ≤ buf.length then
            ploop { r with payloadLength := buf.getD 0 0 * 256 + buf.getD 1 0,
                           state := if r.hasMask then .mask else .payload } (buf.drop 2)
          else (r, .ok ([], buf))
        else if r.payloadLengthFlag > 126 then
          if 8 ≤ buf.length then
            ploop { r with payloadLength := beFold (buf.take 8),
                           state := if r.hasMask then .mask else .payload } (buf.drop 8)
          else (r, .ok ([], buf))
        else
          ploop { r with payloadLength := r.payloadLengthFlag,
                         state := if r.hasMask then .mask else .payload } buf
      | .mask =>
        if 4 ≤ buf.length then
          ploop { r with frameMask := some (buf.take 4), state := .payload } (buf.drop 4)
        else (r, .ok ([], buf))
      | .payload =>
        if r.payloadLength ≥ buf.length then
          let r1 := { r with payloadLength := r.payloadLength - buf.length,
                             framePayload := r.framePayload ++ buf }
          if r1.payloadLength ≠ 0 then (r1, .ok ([], []))
          else
            let pl := if r1.hasMask then websocketMask (r1.frameMask.getD []) r1.framePayload
                      else r1.framePayload
            let fr : Frame := ⟨r1.frameFin, r1.frameOpcode, pl, r1.compressed⟩
            let r2 := { r1 with framePayload := [], state := .header }
            match ploop r2 [] with
            | (r3, .error e) => (r3, .error e)
            | (r3, .ok (fs, left)) => (r3, .ok (fr :: fs, left))
        else
          let r1 := { r with payloadLength := 0,
                             framePayload := r.framePayload ++ buf.take r.payloadLength }
          let pl := if r1.hasMask then websocketMask (r1.frameMask.getD []) r1.framePayload
                    else r1.framePayload
          let fr : Frame := ⟨r1.frameFin, r1.frameOpcode, pl, r1.compressed⟩
          let r2 := { r1 with framePayload := [], state := .header }
          match ploop r2 (buf.drop r.payloadLength) with
          | (r3, .error e) => (r3, .error e)
          | (r3, .ok (fs, left)) => (r3, .ok (fr :: fs, left)) := by
  conv_lhs => rw [ploop]
  rw [ploopN]
  cases hst : r.state with
  | header =>
    simp only [hst, PState.rank]
    by_cases h2 : 2 ≤ buf.length
    · simp only [if_pos h2]
      cases hph : processHeader r (buf.getD 0 0) (buf.getD 1 0) with
      | error e => rfl
      | ok r1 =>
        have hr := PState.rank_le r1.state
        exact (ploop_eq_ploopN _ _ _ (by simp [List.length_drop]; omega)).symm
    · simp only [if_neg h2]
  | length =>
    simp only [hst, PState.rank]
    by_cases hf : r.payloadLengthFlag = 126
    · simp only [if_pos hf]
      by_cases h2 : 2 ≤ buf.length
      · simp only [if_pos h2]
        have hr := PState.rank_ite_le r.hasMask
        rw [← ploop_eq_ploopN _ _ _ (by simp [List.length_drop]; omega)]
      · simp only [if_neg h2]
    · simp only [if_neg hf]
      by_cases hg : r.payloadLengthFlag > 126
      · simp only [if_pos hg]
        by_cases h8 : 8 ≤ buf.length
        · simp only [if_pos h8]
          have hr := PState.rank_ite_le r.hasMask
          rw [← ploop_eq_ploopN _ _ _ (by simp [List.length_drop]; omega)]
        · simp only [if_neg h8]
      · simp only [if_neg hg]
        have hr := PState.rank_ite_le r.hasMask
        rw [← ploop_eq_ploopN _ _ _ (by simp; omega)]
  | mask =>
    simp only [hst, PState.rank]
    by_cases h4 : 4 ≤ buf.length
    · simp only [if_pos h4]
      rw [← ploop_eq_ploopN _ _ _ (by simp [List.length_drop, PState.rank]; omega)]
    · simp only [if_neg h4]
  | payload =>
    simp only [hst, PState.rank]
    by_cases hp : r.payloadLength ≥ buf.length
    · simp only [if_pos hp]
      by_cases h0 : r.payloadLength - buf.length ≠ 0
      · simp only [if_pos h0]
      · simp only [if_neg h0]
        rw [← ploop_eq_ploopN _ _ _ (by simp [PState.rank]; try omega)]
    · simp only [if_neg hp]
      rw [← ploop_eq_ploopN _ _ _ (by simp [List.length_drop, PState.rank]; try omega)]

/-! ### Compositionality of the incremental parser -/

theorem take_append_le {l l' : Bytes} {n : Nat} (h : n ≤ l.length) :
    (l ++ l').take n = l.take n := by
  rw [List.take_append_eq_append_take]
  simp [Nat.sub_eq_zero_of_le h]

theorem drop_append_le {l l' : Bytes} {n : Nat} (h : n ≤ l.length) :
    (l ++ l').drop n = l.drop n ++ l' := by
  rw [List.drop_append_eq_append_drop]
  simp [Nat.sub_eq_zero_of_le h]

/-- Running the loop in `READ_HEADER` state on an empty buffer is a no-op. -/
theorem ploop_nil_header (r : ParseSt) (h : r.state = .header) :
    ploop r [] = (r, .ok ([], [])) := by
  rw [ploop_unfold]
  simp [h]

/-- Compositionality of the parse loop: running it on `buf ++ ext` is the
same as running it on `buf`, then resuming from the stored break point with
the leftover prepended to `ext`.  (An error inside `buf` preempts `ext`.) -/
theorem ploop_append (r : ParseSt) (buf ext : Bytes) :
    ploop r (buf ++ ext) =
      match ploop r buf with
      | (r1, .error e) => (r1, .error e)
      | (r1, .ok (fs, left)) =>
        match ploop r1 (left ++ ext) with
        | (r2, .error e) => (r2, .error e)
        | (r2, .ok (fs2, left2)) => (r2, .ok (fs ++ fs2, left2)) := by
  suffices h : ∀ (n : Nat) (r : ParseSt) (buf ext : Bytes),
      4 * buf.length + r.state.rank < n →
      ploop r (buf ++ ext) =
        match ploop r buf with
        | (r1, .error e) => (r1, .error e)
        | (r1, .ok (fs, left)) =>
          match ploop r1 (left ++ ext) with
          | (r2, .error e) => (r2, .error e)
          | (r2, .ok (fs2, left2)) => (r2, .ok (fs ++ fs2, left2)) by
    exact h (4 * buf.length + r.state.rank + 1) r buf ext (by omega)
  intro n
  induction n with
  | zero => intro r buf ext hn; omega
  | succ n ih =>
    intro r buf ext hn
    rw [ploop_unfold r buf]
    cases hst : r.state with
    | header =>
      simp only [hst, PState.rank] at hn ⊢
      by_cases h2 : 2 ≤ buf.length
      · rw [ploop_unfold r (buf ++ ext)]
        simp only [hst, if_pos h2, List.length_append,
          if_pos (show 2 ≤ buf.length + ext.length by omega),
          List.getD_append buf ext 0 0 (by omega), List.getD_append buf ext 0 1 (by omega),
          drop_append_le (show 2 ≤ buf.length from h2)]
        cases hph : processHeader r (buf.getD 0 0) (buf.getD 1 0) with
        | error e => simp
        | ok r1 =>
          have hr := PState.rank_le r1.state
          exact ih r1 (buf.drop 2) ext (by simp [List.length_drop]; omega)
      · simp only [if_neg h2]
        rcases hq : ploop r (buf ++ ext) with ⟨r2, res⟩
        cases res <;> simp
    | length =>
      simp only [hst, PState.rank] at hn ⊢
      by_cases hf : r.payloadLengthFlag = 126
      · simp only [if_pos hf]
        by_cases h2 : 2 ≤ buf.length
        · rw [ploop_unfold r (buf ++ ext)]
          simp only [hst, if_pos hf, List.length_append,
            if_pos h2, if_pos (show 2 ≤ buf.length + ext.length by omega),
            List.getD_append buf ext 0 0 (by omega), List.getD_append buf ext 0 1 (by omega),
            drop_append_le (show 2 ≤ buf.length from h2)]
          have hr := PState.rank_ite_le r.hasMask
          exact ih _ (buf.drop 2) ext (by simp [List.length_drop]; omega)
        · simp only [if_neg h2]
          rcases hq : ploop r (buf ++ ext) with ⟨r2, res⟩
          cases res <;> simp
      · simp only [if_neg hf]
        by_cases hg : r.payloadLengthFlag > 126
        · simp only [if_pos hg]
          by_cases h8 : 8 ≤ buf.length
          · rw [ploop_unfold r (buf ++ ext)]
            simp only [hst, if_neg hf, if_pos hg, List.length_append,
              if_pos h8, if_pos (show 8 ≤ buf.length + ext.length by omega),
              take_append_le (show 8 ≤ buf.length from h8),
              drop_append_le (show 8 ≤ buf.length from h8)]
            have hr := PState.rank_ite_le r.hasMask
            exact ih _ (buf.drop 8) ext (by simp [List.length_drop]; omega)
          · simp only [if_neg h8]
            rcases hq : ploop r (buf ++ ext) with ⟨r2, res⟩
            cases res <;> simp
        · simp only [if_neg hg]
          rw [ploop_unfold r (buf ++ ext)]
          simp only [hst, if_neg hf, if_neg hg]
          have hr := PState.rank_ite_le r.hasMask
          exact ih _ buf ext (by simp; omega)
    | mask =>
      simp only [hst, PState.rank] at hn ⊢
      by_cases h4 : 4 ≤ buf.length
      · rw [ploop_unfold r (buf ++ ext)]
        simp only [hst, if_pos h4, List.length_append,
          if_pos (show 4 ≤ buf.length + ext.length by omega),
          take_append_le (show 4 ≤ buf.length from h4),
          drop_append_le (show 4 ≤ buf.length from h4)]
        exact ih _ (buf.drop 4) ext (by simp [List.length_drop, PState.rank]; omega)
      · simp only [if_neg h4]
        rcases hq : ploop r (buf ++ ext) with ⟨r2, res⟩
        cases res <;> simp
    | payload =>
      simp only [hst, PState.rank] at hn ⊢
      by_cases hp : r.payloadLength ≥ buf.length
      · simp only [if_pos hp]
        by_cases h0 : r.payloadLength - buf.length ≠ 0
        · -- mid-payload break inside `buf`: resume with `ext` alone
          simp only [if_pos h0, List.nil_append]
          rw [ploop_unfold r (buf ++ ext), ploop_unfold _ ext]
          simp only [hst, List.length_append]
          by_cases hpe : r.payloadLength ≥ buf.length + ext.length
          · simp only [if_pos hpe,
              if_pos (show r.payloadLength - buf.length ≥ ext.length by omega),
              List.append_assoc, Nat.sub_sub]
            by_cases h0e : r.payloadLength - (buf.length + ext.length) ≠ 0
            · simp only [if_pos h0e]
            · simp only [if_neg h0e]
              split <;> simp_all
          · simp only [if_neg hpe,
              if_neg (show ¬ r.payloadLength - buf.length ≥ ext.length by omega)]
            have htk : (buf ++ ext).take r.payloadLength
                = buf ++ ext.take (r.payloadLength - buf.length) := by
              rw [List.take_append_eq_append_take, List.take_of_length_le hp]
            have hdr : (buf ++ ext).drop r.payloadLength
                = ext.drop (r.payloadLength - buf.length) := by
              rw [List.drop_append_eq_append_drop, List.drop_of_length_le hp]
              simp
            rw [htk, hdr]
            simp only [List.append_assoc]
            split <;> simp_all
        · -- the frame completes exactly at the end of `buf`
          simp only [if_neg h0]
          have h0' : r.payloadLength - buf.length = 0 := by omega
          have hple : r.payloadLength = buf.length := by omega
          rw [ploop_nil_header _ rfl]
          by_cases hee : ext.length = 0
          · have hext : ext = [] := List.length_eq_zero.mp hee
            subst hext
            rw [ploop_unfold r (buf ++ [])]
            simp only [List.append_nil, hst, if_pos hp, if_neg h0]
            rw [ploop_nil_header _ rfl]
            simp
          · rw [ploop_unfold r (buf ++ ext)]
            simp only [hst, List.length_append,
              if_neg (show ¬ r.payloadLength ≥ buf.length + ext.length by omega)]
            have htk : (buf ++ ext).take r.payloadLength = buf := by
              rw [hple, List.take_left]
            have hdr : (buf ++ ext).drop r.payloadLength = ext := by
              rw [hple, List.drop_left]
            rw [htk, hdr]
            simp only [h0', List.nil_append]
            split <;> simp_all
      · -- the frame completes strictly inside `buf`
        simp only [if_neg hp]
        rw [ploop_unfold r (buf ++ ext)]
        simp only [hst, List.length_append,
          if_neg (show ¬ r.payloadLength ≥ buf.length + ext.length by omega),
          take_append_le (show r.payloadLength ≤ buf.length by omega),
          drop_append_le (show r.payloadLength ≤ buf.length by omega)]
        rw [ih _ (buf.drop r.payloadLength) ext (by simp [List.length_drop, PState.rank]; omega)]
        generalize ploop { r with state := PState.header, framePayload := ([] : Bytes), payloadLength := 0 } (buf.drop r.payloadLength) = q
        rcases q with ⟨r3, res⟩
        cases res with
        | error e => simp
        | ok v =>
          rcases v with ⟨fs, left⟩
          dsimp only
          rcases hq2 : ploop r3 (left ++ ext) with ⟨r4, res2⟩
          cases res2 <;> simp

/-- The parse loop never touches `_tail` (it is handled by `parse_frame`). -/
theorem ploop_tail : ∀ (r : ParseSt) (buf : Bytes), ((ploop r buf).1).tail = r.tail := by
  suffices h : ∀ (n : Nat) (r : ParseSt) (buf : Bytes),
      4 * buf.length + r.state.rank < n → ((ploop r buf).1).tail = r.tail by
    intro r buf
    exact h (4 * buf.length + r.state.rank + 1) r buf (by omega)
  intro n
  induction n with
  | zero => intro r buf hn; omega
  | succ n ih =>
    intro r buf hn
    rw [ploop_unfold r buf]
    cases hst : r.state with
    | header =>
      simp only [hst, PState.rank] at hn ⊢
      by_cases h2 : 2 ≤ buf.length
      · simp only [if_pos h2]
        cases hph : processHeader r (buf.getD 0 0) (buf.getD 1 0) with
        | error e => rfl
        | ok r1 =>
          have hr := PState.rank_le r1.state
          have h1 := ih r1 (buf.drop 2) (by simp [List.length_drop]; omega)
          rw [h1]
          have : processHeader r (buf.getD 0 0) (buf.getD 1 0) = .ok r1 := hph
          simp only [processHeader] at this
          split_ifs at this <;> simp_all
          all_goals (cases this; rfl)
      · simp only [if_neg h2]
    | length =>
      simp only [hst, PState.rank] at hn ⊢
      by_cases hf : r.payloadLengthFlag = 126
      · simp only [if_pos hf]
        by_cases h2 : 2 ≤ buf.length
        · simp only [if_pos h2]
          have hr := PState.rank_ite_le r.hasMask
          rw [ih _ (buf.drop 2) (by simp [List.length_drop]; omega)]
        · simp only [if_neg h2]
      · simp only [if_neg hf]
        by_cases hg : r.payloadLengthFlag > 126
        · simp only [if_pos hg]
          by_cases h8 : 8 ≤ buf.length
          · simp only [if_pos h8]
            have hr := PState.rank_ite_le r.hasMask
            rw [ih _ (buf.drop 8) (by simp [List.length_drop]; omega)]
          · simp only [if_neg h8]
        · simp only [if_neg hg]
          have hr := PState.rank_ite_le r.hasMask
          rw [ih _ buf (by simp; omega)]
    | mask =>
      simp only [hst, PState.rank] at hn ⊢
      by_cases h4 : 4 ≤ buf.length
      · simp only [if_pos h4]
        rw [ih _ (buf.drop 4) (by simp [List.length_drop, PState.rank]; omega)]
      · simp only [if_neg h4]
    | payload =>
      simp only [hst, PState.rank] at hn ⊢
      by_cases hp : r.payloadLength ≥ buf.length
      · simp only [if_pos hp]
        by_cases h0 : r.payloadLength - buf.length ≠ 0
        · simp only [if_pos h0]
        · simp only [if_neg h0]
          have h1 := ih { r with payloadLength := r.payloadLength - buf.length, framePayload := ([] : Bytes), state := PState.header } [] (by simp [PState.rank]; omega)
          rcases hq : ploop { r with payloadLength := r.payloadLength - buf.length, framePayload := ([] : Bytes), state := PState.header } [] with ⟨r3, res⟩
          rw [hq] at h1
          cases res <;> simpa using h1
      · simp only [if_neg hp]
        have h1 := ih { r with payloadLength := 0, framePayload := ([] : Bytes), state := PState.header } (buf.drop r.payloadLength) (by simp [List.length_drop, PState.rank]; omega)
        rcases hq : ploop { r with payloadLength := 0, framePayload := ([] : Bytes), state := PState.header } (buf.drop r.payloadLength) with ⟨r3, res⟩
        rw [hq] at h1
        cases res <;> simpa using h1

/-- Rewriting a `tail := []` update away when the tail is already empty. -/
theorem ParseSt.setTail_nil (p : ParseSt) (h : p.tail = []) :
    { p with tail := ([] : Bytes) } = p := by
  cases p
  simp_all

/-! ### Compositionality of `_feed_data` over chunk concatenation -/

theorem processFrames_append (D : DecompSpec σ) (mx : Nat) (m : MsgSt σ)
    (fs1 fs2 : List Frame) :
    processFrames D mx m (fs1 ++ fs2) =
      match processFrames D mx m fs1 with
      | ⟨m1, ms1, some e⟩ => ⟨m1, ms1, some e⟩
      | ⟨m1, ms1, none⟩ =>
        ⟨(processFrames D mx m1 fs2).msg,
         ms1 ++ (processFrames D mx m1 fs2).msgs,
         (processFrames D mx m1 fs2).err⟩ := by
  induction fs1 generalizing m with
  | nil => simp [processFrames]
  | cons f fs ih =>
    simp only [List.cons_append, processFrames]
    cases hse : (handleFrame D mx m f).err with
    | some e => simp
    | none =>
      have hih := ih (handleFrame D mx m f).msg
      rcases hp2 : processFrames D mx (handleFrame D mx m f).msg fs with ⟨m1, ms1, err1⟩
      rw [hp2] at hih
      simp only [List.append_eq]
      rw [hih]
      cases err1 <;> simp

/-- Compositionality of `_feed_data`: when feeding `c1` and then `c2`
raises no error, feeding `c1 ++ c2` in one call gives the same reader and
the concatenation of the delivered message sequences. -/
theorem feedDataAux_append (D : DecompSpec σ) (r : Reader σ) (c1 c2 : Bytes)
    (h1 : (feedDataAux D r c1).err = none)
    (h2 : (feedDataAux D (feedDataAux D r c1).reader c2).err = none) :
    feedDataAux D r (c1 ++ c2) =
      ⟨(feedDataAux D (feedDataAux D r c1).reader c2).reader,
       (feedDataAux D r c1).msgs ++
         (feedDataAux D (feedDataAux D r c1).reader c2).msgs,
       none⟩ := by
  have htail0 := ploop_tail { r.parse with tail := ([] : Bytes) } (r.parse.tail ++ c1)
  simp only [feedDataAux, parseFrame] at h1 h2 ⊢
  rcases hP : ploop { r.parse with tail := ([] : Bytes) } (r.parse.tail ++ c1)
    with ⟨pA, res⟩
  rw [hP] at h1 h2 htail0
  cases res with
  | error e => simp at h1
  | ok v =>
    rcases v with ⟨fs1, left⟩
    simp only at h1 h2 htail0 ⊢
    rw [← List.append_assoc, ploop_append _ (r.parse.tail ++ c1) c2, hP]
    simp only at h2 ⊢
    have htailA : pA.tail = [] := by simpa using htail0
    rw [ParseSt.setTail_nil pA htailA] at h2 ⊢
    rcases hQ : ploop pA (left ++ c2) with ⟨pB, res2⟩
    rw [hQ] at h2
    cases res2 with
    | error e =>
      simp at h2
    | ok v2 =>
      rcases v2 with ⟨fs2, left2⟩
      simp only at h2 ⊢
      rw [processFrames_append]
      rcases hS1 : processFrames D r.maxMsgSize r.msg fs1 with ⟨m1, ms1, err1⟩
      rw [hS1] at h1
      cases err1 with
      | some e => simp at h1
      | none =>
        rw [hS1] at h2
        rcases hS2 : processFrames D r.maxMsgSize m1 fs2 with ⟨m2, ms2, err2⟩
        rw [hS2] at h2
        cases err2 with
        | some e => simp at h2
        | none => simp [hS2]

/-- `_feed_data` never touches the `_exc` latch. -/
theorem feedDataAux_exc (D : DecompSpec σ) (r : Reader σ) (c : Bytes) :
    (feedDataAux D r c).reader.exc = r.exc := by
  simp only [feedDataAux]
  rcases hP : parseFrame r.parse c with ⟨p1, res⟩
  cases res <;> rfl

/-- A successful `feed_data` call is exactly a successful `_feed_data` call:
no latch, no `set_exception`, result `(False, b"")`. -/
theorem feedData_ok (D : DecompSpec σ) (r : Reader σ) (c : Bytes)
    (hexc : r.exc = none) (h : (feedData D r c).sinkExc = none) :
    (feedDataAux D r c).err = none ∧
      feedData D r c =
        ⟨(feedDataAux D r c).reader, (feedDataAux D r c).msgs, none, false, []⟩ := by
  simp only [feedData, hexc] at h ⊢
  rcases hA : feedDataAux D r c with ⟨r1, ms1, err1⟩
  cases err1 with
  | some e => simp [hA] at h
  | none => simp [hA]

/-- Compositionality of `feed_data`: two consecutive error-free calls are
one call on the concatenated chunk. -/
theorem feedData_append (D : DecompSpec σ) (r : Reader σ) (c1 c2 : Bytes)
    (hexc : r.exc = none)
    (h1 : (feedData D r c1).sinkExc = none)
    (h2 : (feedData D (feedData D r c1).reader c2).sinkExc = none) :
    feedData D r (c1 ++ c2) =
      ⟨(feedData D (feedData D r c1).reader c2).reader,
       (feedData D r c1).msgs ++ (feedData D (feedData D r c1).reader c2).msgs,
       none, false, []⟩ := by
  obtain ⟨e1, hf1⟩ := feedData_ok D r c1 hexc h1
  have hexc1 : (feedDataAux D r c1).reader.exc = none := by
    rw [feedDataAux_exc]; exact hexc
  rw [hf1] at h2 ⊢
  simp only at h2 ⊢
  obtain ⟨e2, hf2⟩ := feedData_ok D (feedDataAux D r c1).reader c2 hexc1 h2
  rw [hf2]
  have hcomb := feedDataAux_append D r c1 c2 e1 e2
  simp only [feedData, hexc, Option.isSome_none, Bool.false_eq_true, if_false]
  rw [hcomb]

/-- Merging the two leading chunks of an error-free run. -/
theorem runChunks_merge (D : DecompSpec σ) (r : Reader σ) (c1 c2 : Bytes)
    (cs : List Bytes) (hexc : r.exc = none)
    (h : (runChunks D r (c1 :: c2 :: cs)).sinkExc = none) :
    runChunks D r (c1 :: c2 :: cs) = runChunks D r ((c1 ++ c2) :: cs) := by
  have h1 : (feedData D r c1).sinkExc = none := by
    simp only [runChunks] at h
    cases hx : (feedData D r c1).sinkExc <;> simp [hx] at h ⊢
  have h2 : (feedData D (feedData D r c1).reader c2).sinkExc = none := by
    simp only [runChunks] at h
    cases hx : (feedData D (feedData D r c1).reader c2).sinkExc <;>
      simp [hx, h1] at h ⊢
  have hm := feedData_append D r c1 c2 hexc h1 h2
  simp only [runChunks, hm, h1, h2]
  simp [List.append_assoc]

/-- An error-free run over any chunking equals the single-chunk run over the
concatenated stream. -/
theorem runChunks_flatten (D : DecompSpec σ) :
    ∀ (cs : List Bytes) (c : Bytes) (r : Reader σ), r.exc = none →
    (runChunks D r (c :: cs)).sinkExc = none →
    runChunks D r (c :: cs) = runChunks D r [c ++ cs.flatten] := by
  intro cs
  induction cs with
  | nil => intro c r hexc h; simp
  | cons c2 cs ih =>
    intro c r hexc h
    rw [runChunks_merge D r c c2 cs hexc h]
    rw [runChunks_merge D r c c2 cs hexc h] at h
    rw [ih (c ++ c2) r hexc h]
    simp [List.flatten]

/-! ### Claim theorems -/

/-- A latched reader, used to witness the latching claims. -/
def latchedReader : Reader Unit :=
  { mkReader Unit 0 true with exc := some ⟨PROTOCOL_ERROR, "boom"⟩ }

/-- C1 (counterexample): the claim says the erroring `feed_data(chunk)` call
returns `(closed=true, leftover=chunk)`; on the chunk `[0x30, 0x00]` (RSV2
set, a protocol error) the call latches and closes but returns
`leftover = b""` (`EMPTY_FRAME_ERROR`), not the chunk. -/
theorem c1_counterexample :
    (feedData dUnit (mkReader Unit 0 true) [48, 0]).closed = true ∧
    (feedData dUnit (mkReader Unit 0 true) [48, 0]).sinkExc.isSome = true ∧
    (feedData dUnit (mkReader Unit 0 true) [48, 0]).reader.exc.isSome = true ∧
    ¬ (feedData dUnit (mkReader Unit 0 true) [48, 0]).leftover = [48, 0] := by
  decide

/-- C1 (amended): on a chunk whose parsing raises an error, `feed_data`
latches the error, passes it to `set_exception` on the sink, and returns
`(closed=true, leftover=b"")` (the constant `EMPTY_FRAME_ERROR`), not the
erroring chunk; an error-free chunk returns `(false, b"")`; only calls on an
already-latched reader return `(true, chunk)`. -/
theorem c1_amended (σ : Type) (D : DecompSpec σ) (r : Reader σ) (data : Bytes) :
    (r.exc = none →
      ((feedDataAux D r data).err = none →
        feedData D r data =
          ⟨(feedDataAux D r data).reader, (feedDataAux D r data).msgs, none, false, []⟩) ∧
      (∀ e, (feedDataAux D r data).err = some e →
        feedData D r data =
          ⟨{ (feedDataAux D r data).reader with exc := some e },
           (feedDataAux D r data).msgs, some e, true, []⟩)) ∧
    (r.exc.isSome = true → feedData D r data = ⟨r, [], none, true, data⟩) := by
  constructor
  · intro hexc
    constructor
    · intro herr
      simp only [feedData, hexc, Option.isSome_none, Bool.false_eq_true, if_false]
      rcases hA : feedDataAux D r data with ⟨r1, ms1, err1⟩
      rw [hA] at herr
      cases err1 with
      | some e => simp at herr
      | none => rfl
    · intro e herr
      simp only [feedData, hexc, Option.isSome_none, Bool.false_eq_true, if_false]
      rcases hA : feedDataAux D r data with ⟨r1, ms1, err1⟩
      rw [hA] at herr
      cases err1 with
      | some e2 => simp at herr; rw [herr]
      | none => simp at herr
  · intro hsome
    simp [feedData, hsome]

/-- C1 (witness): the amended theorem at a concrete error-free ping chunk. -/
theorem c1_witness :
    feedData dUnit (mkReader Unit 0 true) [137, 0] =
      ⟨(feedDataAux dUnit (mkReader Unit 0 true) [137, 0]).reader,
       (feedDataAux dUnit (mkReader Unit 0 true) [137, 0]).msgs, none, false, []⟩ :=
  ((c1_amended Unit dUnit (mkReader Unit 0 true) [137, 0]).1 rfl).1 (by decide)

/-- C9: once any `feed_data` call has raised (so `_exc` is latched), each
subsequent `feed_data(c)` returns `(true, c)` without parsing, delivers no
message to the sink, calls no `set_exception`, and leaves the reader
unchanged — hence any number of subsequent calls behaves this way. -/
theorem c9_latched (σ : Type) (D : DecompSpec σ) (r : Reader σ) (c : Bytes)
    (cs : List Bytes) :
    (∀ (r0 : Reader σ) (c0 : Bytes), (feedData D r0 c0).sinkExc.isSome = true →
        (feedData D r0 c0).reader.exc.isSome = true) ∧
    (r.exc.isSome = true → feedData D r c = ⟨r, [], none, true, c⟩) ∧
    (r.exc.isSome = true → runChunks D r cs = ⟨r, [], none⟩) := by
  refine ⟨?_, ?_, ?_⟩
  · intro r0 c0 h
    simp only [feedData] at h ⊢
    by_cases hexc : r0.exc.isSome = true
    · simp [hexc]
    · simp only [hexc, Bool.false_eq_true, if_false] at h ⊢
      rcases hA : feedDataAux D r0 c0 with ⟨r1, ms1, err1⟩
      cases err1 <;> simp_all
  · intro hsome
    simp [feedData, hsome]
  · intro hsome
    induction cs with
    | nil => rfl
    | cons c0 cs ih =>
      simp [runChunks, feedData, hsome, ih]

/-- C9 (witness): the latching clauses at a concrete latched reader. -/
theorem c9_witness :
    feedData dUnit latchedReader [7] = ⟨latchedReader, [], none, true, [7]⟩ ∧
    runChunks dUnit latchedReader [[1], [2]] = ⟨latchedReader, [], none⟩ :=
  ⟨(c9_latched Unit dUnit latchedReader [7] [[1], [2]]).2.1 (by decide),
   (c9_latched Unit dUnit latchedReader [7] [[1], [2]]).2.2 (by decide)⟩

/-- C2 (counterexample): the stream `81 01 FF 30 00` (an invalid-UTF-8 text
frame followed by a bad header) fed as one chunk raises
`PROTOCOL_ERROR` (the header error preempts: `parse_frame` scans the whole
chunk before any frame is processed and the raise discards the parsed
frames), while fed as two chunks it raises `INVALID_TEXT` — two
partitionings of the same stream with different errors. -/
theorem c2_counterexample :
    ([[129, 1, 255], [48, 0]] : List Bytes).flatten =
      ([[129, 1, 255, 48, 0]] : List Bytes).flatten ∧
    (runChunks dUnit (mkReader Unit 0 true) [[129, 1, 255], [48, 0]]).sinkExc.map
        WSError.code = some INVALID_TEXT ∧
    (runChunks dUnit (mkReader Unit 0 true) [[129, 1, 255, 48, 0]]).sinkExc.map
        WSError.code = some PROTOCOL_ERROR ∧
    ¬ (runChunks dUnit (mkReader Unit 0 true) [[129, 1, 255], [48, 0]]).sinkExc =
        (runChunks dUnit (mkReader Unit 0 true) [[129, 1, 255, 48, 0]]).sinkExc := by
  decide

/-- C2 (amended): for every byte stream and every two partitionings of it
into (one or more) chunks, if feeding either partitioning to a freshly
created reader raises no error, then the two runs deliver the identical
message sequence to the sink and end in identical reader state.  (When an
error is raised the two partitionings may raise different errors, as the
counterexample shows.) -/
theorem c2_amended (σ : Type) (D : DecompSpec σ) (M : Nat) (cp : Bool)
    (c1 : Bytes) (cs1 : List Bytes) (c2 : Bytes) (cs2 : List Bytes)
    (hS : (c1 :: cs1).flatten = (c2 :: cs2).flatten)
    (h1 : (runChunks D (mkReader σ M cp) (c1 :: cs1)).sinkExc = none)
    (h2 : (runChunks D (mkReader σ M cp) (c2 :: cs2)).sinkExc = none) :
    runChunks D (mkReader σ M cp) (c1 :: cs1) =
      runChunks D (mkReader σ M cp) (c2 :: cs2) := by
  rw [runChunks_flatten D cs1 c1 _ rfl h1, runChunks_flatten D cs2 c2 _ rfl h2]
  have : c1 ++ cs1.flatten = c2 ++ cs2.flatten := by simpa using hS
  rw [this]

/-- C2 (witness): the amended theorem on a ping frame split at the header
boundary versus fed whole. -/
theorem c2_witness :
    runChunks dUnit (mkReader Unit 0 true) [[137], [0]] =
      runChunks dUnit (mkReader Unit 0 true) [[137, 0]] :=
  c2_amended Unit dUnit 0 true [137] [[0]] [137, 0] []
    (by decide) (by decide) (by decide)

/-- C5: compression-continuity rule.  With the earlier header checks
passing, if the previously parsed frame had `fin = true` or no message is in
progress (`_compressed is None`), the parser sets `_compressed` from this
frame's RSV1 bit; otherwise RSV1 = 1 raises a protocol error and RSV1 = 0
leaves `_compressed` unchanged (sticky across continuation frames). -/
theorem c5_compression_continuity (r : ParseSt) (b0 b1 : Nat)
    (hrsv : ¬(b0 / 32 % 2 ≠ 0 ∨ b0 / 16 % 2 ≠ 0 ∨ (b0 / 64 % 2 ≠ 0 ∧ ¬r.compress)))
    (hctl : ¬(b0 % 16 > 7 ∧ b0 / 128 % 2 = 0))
    (hsz : ¬(b0 % 16 > 7 ∧ b1 % 128 > 125)) :
    (r.frameFin = true ∨ r.compressed = none →
      ∃ r1, processHeader r b0 b1 = .ok r1 ∧
        r1.compressed = some (decide (b0 / 64 % 2 ≠ 0))) ∧
    (¬(r.frameFin = true ∨ r.compressed = none) →
      (b0 / 64 % 2 ≠ 0 →
        processHeader r b0 b1 =
          .error ⟨PROTOCOL_ERROR, "Received frame with non-zero reserved bits"⟩) ∧
      (b0 / 64 % 2 = 0 →
        ∃ r1, processHeader r b0 b1 = .ok r1 ∧ r1.compressed = r.compressed)) := by
  simp only [processHeader, if_neg hrsv, if_neg hctl, if_neg hsz]
  constructor
  · intro hc
    rw [if_pos hc]
    exact ⟨_, rfl, rfl⟩
  · intro hc
    rw [if_neg hc]
    constructor
    · intro h1
      rw [if_pos h1]
    · intro h0
      rw [if_neg (by omega : ¬ b0 / 64 % 2 ≠ 0)]
      exact ⟨_, rfl, rfl⟩

/-- C5 (witness): a first-fragment header `0xC1` (FIN, RSV1, TEXT) on a
fresh reader sets `compressed := some true`. -/
theorem c5_witness :
    ∃ r1, processHeader (mkReader Unit 0 true).parse 193 1 = .ok r1 ∧
      r1.compressed = some true := by
  have h := (c5_compression_continuity (mkReader Unit 0 true).parse 193 1
    (by decide) (by decide) (by decide)).1 (Or.inr rfl)
  simpa using h

/-- C8: header validation.  A set RSV2 or RSV3 bit, or RSV1 without
compression negotiated, raises the protocol error "Received frame with
non-zero reserved bits"; then a control opcode (> 0x7) with `fin = 0` raises
"Received fragmented control frame"; then a control opcode with a payload
length flag > 125 raises "Control frame payload cannot be larger than 125
bytes". -/
theorem c8_header_validation (r : ParseSt) (b0 b1 : Nat) :
    ((b0 / 32 % 2 ≠ 0 ∨ b0 / 16 % 2 ≠ 0 ∨ (b0 / 64 % 2 ≠ 0 ∧ ¬r.compress)) →
      processHeader r b0 b1 =
        .error ⟨PROTOCOL_ERROR, "Received frame with non-zero reserved bits"⟩) ∧
    (¬(b0 / 32 % 2 ≠ 0 ∨ b0 / 16 % 2 ≠ 0 ∨ (b0 / 64 % 2 ≠ 0 ∧ ¬r.compress)) →
      b0 % 16 > 7 → b0 / 128 % 2 = 0 →
      processHeader r b0 b1 =
        .error ⟨PROTOCOL_ERROR, "Received fragmented control frame"⟩) ∧
    (¬(b0 / 32 % 2 ≠ 0 ∨ b0 / 16 % 2 ≠ 0 ∨ (b0 / 64 % 2 ≠ 0 ∧ ¬r.compress)) →
      ¬(b0 % 16 > 7 ∧ b0 / 128 % 2 = 0) → b0 % 16 > 7 → b1 % 128 > 125 →
      processHeader r b0 b1 =
        .error ⟨PROTOCOL_ERROR, "Control frame payload cannot be larger than 125 bytes"⟩) := by
  refine ⟨?_, ?_, ?_⟩
  · intro h
    simp only [processHeader, if_pos h]
  · intro hrsv hop hfin
    simp only [processHeader, if_neg hrsv, if_pos (And.intro hop hfin)]
  · intro hrsv hctl hop hlen
    simp only [processHeader, if_neg hrsv, if_neg hctl, if_pos (And.intro hop hlen)]

/-- C8 (witness): the three validation errors at concrete headers
(`0x30 0x00` RSV2 set; `0x08 0x00` non-fin close; `0x88 0x7E` close with
length flag 126). -/
theorem c8_witness :
    processHeader (mkReader Unit 0 true).parse 48 0 =
      .error ⟨PROTOCOL_ERROR, "Received frame with non-zero reserved bits"⟩ ∧
    processHeader (mkReader Unit 0 true).parse 8 0 =
      .error ⟨PROTOCOL_ERROR, "Received fragmented control frame"⟩ ∧
    processHeader (mkReader Unit 0 true).parse 136 126 =
      .error ⟨PROTOCOL_ERROR, "Control frame payload cannot be larger than 125 bytes"⟩ :=
  ⟨(c8_header_validation (mkReader Unit 0 true).parse 48 0).1 (by decide),
   (c8_header_validation (mkReader Unit 0 true).parse 8 0).2.1 (by decide) (by decide) (by decide),
   (c8_header_validation (mkReader Unit 0 true).parse 136 126).2.2 (by decide) (by decide)
     (by decide) (by decide)⟩

/-- C4: close-frame handling.  For a complete close frame: empty payload
emits `Close{code 0, reason ""}`; a 1-byte payload raises a protocol error;
a payload of length ≥ 2 reads the big-endian u16 code from the first two
bytes, raises a protocol error exactly when `code < 3000` and
`code ∉ ALLOWED_CLOSE_CODES` (the concrete list
`[1000, ..., 1015]`), passes codes in `[3000, 65535]` through (a two-byte
big-endian code is at most 65535), and UTF-8-decodes the remaining bytes as
the reason, raising `INVALID_TEXT` on decode failure. -/
theorem c4_close_frame (σ : Type) (D : DecompSpec σ) (mx : Nat) (m : MsgSt σ)
    (p : Bytes) (cmp : Option Bool) :
    ALLOWED_CLOSE_CODES =
      [1000, 1001, 1002, 1003, 1007, 1008, 1009, 1010, 1011, 1012, 1013, 1014, 1015] ∧
    (p = [] → handleFrame D mx m ⟨true, some 8, p, cmp⟩ =
      ⟨m, [WSMessage.close 0 []], none⟩) ∧
    (∀ b, p = [b] → handleFrame D mx m ⟨true, some 8, p, cmp⟩ =
      ⟨m, [], some ⟨PROTOCOL_ERROR, "Invalid close frame"⟩⟩) ∧
    (∀ b0 b1 rest, p = b0 :: b1 :: rest →
      (b0 * 256 + b1 < 3000 ∧ b0 * 256 + b1 ∉ ALLOWED_CLOSE_CODES →
        handleFrame D mx m ⟨true, some 8, p, cmp⟩ =
          ⟨m, [], some ⟨PROTOCOL_ERROR, s!"Invalid close code: {b0 * 256 + b1}"⟩⟩) ∧
      (¬(b0 * 256 + b1 < 3000 ∧ b0 * 256 + b1 ∉ ALLOWED_CLOSE_CODES) →
        (utf8Decode rest = none →
          handleFrame D mx m ⟨true, some 8, p, cmp⟩ =
            ⟨m, [], some ⟨INVALID_TEXT, "Invalid UTF-8 text message"⟩⟩) ∧
        (∀ cps, utf8Decode rest = some cps →
          handleFrame D mx m ⟨true, some 8, p, cmp⟩ =
            ⟨m, [WSMessage.close (b0 * 256 + b1) cps], none⟩)) ∧
      (3000 ≤ b0 * 256 + b1 →
        ¬(b0 * 256 + b1 < 3000 ∧ b0 * 256 + b1 ∉ ALLOWED_CLOSE_CODES)) ∧
      (b0 < 256 → b1 < 256 → b0 * 256 + b1 ≤ 65535)) := by
  refine ⟨rfl, ?_, ?_, ?_⟩
  · intro hp
    subst hp
    rfl
  · intro b hp
    subst hp
    rfl
  · intro b0 b1 rest hp
    subst hp
    refine ⟨?_, ?_, ?_, ?_⟩
    · intro hbad
      simp only [handleFrame]
      rw [if_neg (by decide)]
      simp only [if_true, handleClose]
      rw [if_pos hbad]
    · intro hok
      constructor
      · intro hdec
        simp only [handleFrame]
        rw [if_neg (by decide)]
        simp only [if_true, handleClose]
        rw [if_neg hok, hdec]
      · intro cps hdec
        simp only [handleFrame]
        rw [if_neg (by decide)]
        simp only [if_true, handleClose]
        rw [if_neg hok, hdec]
    · intro h3000
      omega
    · intro hb0 hb1
      omega

/-- C4 (witness): a close frame with code 1000 and reason "ok". -/
theorem c4_witness :
    handleFrame dUnit 0 (mkReader Unit 0 true).msg ⟨true, some 8, [3, 232, 111, 107], some false⟩ =
      ⟨(mkReader Unit 0 true).msg, [WSMessage.close 1000 [111, 107]], none⟩ :=
  (((c4_close_frame Unit dUnit 0 (mkReader Unit 0 true).msg [3, 232, 111, 107]
      (some false)).2.2.2 3 232 [111, 107] rfl).2.1 (by decide)).2 [111, 107] (by decide)

/-- C7 (counterexample): the claim says a continuation frame arriving while
no message opcode is recorded raises a protocol error; in the code the check
only runs for `fin` frames, so a non-fin continuation on a fresh reader is
accepted silently (it is appended to `_partial`). -/
theorem c7_counterexample :
    (mkReader Unit 0 true).msg.msgOpcode = none ∧
    (handleFrame dUnit 0 (mkReader Unit 0 true).msg
      ⟨false, some 0, [120], some false⟩).err = none ∧
    (handleFrame dUnit 0 (mkReader Unit 0 true).msg
      ⟨false, some 0, [120], some false⟩).msg.partialData = [120] := by
  decide

/-- C7 (amended): the data-frame sequencing checks run only on `fin`
frames.  A `fin` continuation with no recorded message opcode raises
"Continuation frame for non started message"; a `fin` TEXT/BINARY frame with
a non-empty partial buffer raises a protocol error; a non-fin TEXT or BINARY
frame records its opcode and accumulates without any sequencing error (even
mid-message); a non-fin continuation accumulates without error even when no
opcode is recorded; a `fin` continuation with a recorded opcode emits
`partial + payload` under the recorded opcode and clears the partial buffer
and the recorded opcode. -/
theorem c7_amended (σ : Type) (D : DecompSpec σ) (mx : Nat) (m : MsgSt σ)
    (payload : Bytes) (cmp : Option Bool) :
    (m.msgOpcode = none →
      handleFrame D mx m ⟨true, some 0, payload, cmp⟩ =
        ⟨m, [], some ⟨PROTOCOL_ERROR, "Continuation frame for non started message"⟩⟩) ∧
    (∀ op, op = 1 ∨ op = 2 → ¬m.partialData = [] →
      handleFrame D mx m ⟨true, some op, payload, cmp⟩ =
        ⟨m, [], some ⟨PROTOCOL_ERROR,
          s!"The opcode in non-fin frame is expected to be zero, got {op}"⟩⟩) ∧
    (∀ op, op = 1 ∨ op = 2 →
      (handleFrame D mx m ⟨false, some op, payload, cmp⟩).msg.msgOpcode = some op ∧
      (handleFrame D mx m ⟨false, some op, payload, cmp⟩).msg.partialData =
        m.partialData ++ payload ∧
      (handleFrame D mx m ⟨false, some op, payload, cmp⟩).msgs = [] ∧
      ∀ e, (handleFrame D mx m ⟨false, some op, payload, cmp⟩).err = some e →
        e.code = MESSAGE_TOO_BIG) ∧
    ((handleFrame D mx m ⟨false, some 0, payload, cmp⟩).msg.msgOpcode = m.msgOpcode ∧
     (handleFrame D mx m ⟨false, some 0, payload, cmp⟩).msg.partialData =
       m.partialData ++ payload ∧
     ∀ e, (handleFrame D mx m ⟨false, some 0, payload, cmp⟩).err = some e →
       e.code = MESSAGE_TOO_BIG) ∧
    (∀ k, m.msgOpcode = some k → ¬cmp = some true →
      ¬(mx ≠ 0 ∧ mx ≤ (m.partialData ++ payload).length) →
      (k = 2 → handleFrame D mx m ⟨true, some 0, payload, cmp⟩ =
        ⟨⟨[], none, m.decompressObj⟩,
         [WSMessage.binary (m.partialData ++ payload) ""], none⟩) ∧
      (k = 1 → ∀ cps, utf8Decode (m.partialData ++ payload) = some cps →
        handleFrame D mx m ⟨true, some 0, payload, cmp⟩ =
          ⟨⟨[], none, m.decompressObj⟩, [WSMessage.text cps ""], none⟩)) := by
  refine ⟨?_, ?_, ?_, ?_, ?_⟩
  · intro h
    simp [handleFrame, handleData, h]
  · intro op hop hpart
    have hne : ¬op = 0 := by rcases hop with h | h <;> omega
    have hco : op = 1 ∨ op = 2 ∨ op = 0 := by tauto
    have hie : m.partialData.isEmpty = false := by
      cases hmp : m.partialData <;> simp_all [List.isEmpty]
    rcases hop with h | h <;>
      simp [handleFrame, handleData, h, hie]
  · intro op hop
    have hsa : (m.partialData ++ payload).length
        = m.partialData.length + payload.length := List.length_append _ _
    rcases hop with h | h <;>
      by_cases hsz : mx ≠ 0 ∧ mx ≤ m.partialData.length + payload.length <;>
      simp [handleFrame, handleData, h, hsz, hsa, MESSAGE_TOO_BIG]
  · have hsa : (m.partialData ++ payload).length
        = m.partialData.length + payload.length := List.length_append _ _
    by_cases hsz : mx ≠ 0 ∧ mx ≤ m.partialData.length + payload.length <;>
      simp [handleFrame, handleData, hsz, hsa, MESSAGE_TOO_BIG]
  · intro k hk hcmp hsz
    constructor
    · intro hk2
      subst hk2
      by_cases hie : m.partialData.isEmpty <;>
        simp_all [handleFrame, handleData, finishData, emitData, List.isEmpty_iff]
    · intro hk1 cps hdec
      subst hk1
      by_cases hie : m.partialData.isEmpty <;>
        simp_all [handleFrame, handleData, finishData, emitData, List.isEmpty_iff]

/-- C7 (witness): the amended clauses at concrete inputs — a fin
continuation with no recorded opcode errors, and a fin continuation
completing a recorded binary message emits it and clears the state. -/
theorem c7_witness :
    handleFrame dUnit 0 (mkReader Unit 0 true).msg ⟨true, some 0, [1], some false⟩ =
      ⟨(mkReader Unit 0 true).msg, [],
       some ⟨PROTOCOL_ERROR, "Continuation frame for non started message"⟩⟩ ∧
    handleFrame dUnit 0 ⟨[5], some 2, none⟩ ⟨true, some 0, [6], some false⟩ =
      ⟨⟨[], none, none⟩, [WSMessage.binary [5, 6] ""], none⟩ :=
  ⟨(c7_amended Unit dUnit 0 (mkReader Unit 0 true).msg [1] (some false)).1 rfl,
   ((c7_amended Unit dUnit 0 ⟨[5], some 2, none⟩ [6] (some false)).2.2.2.2 2
     rfl (by decide) (by decide)).1 rfl⟩

/-- C6: size-check tightness for uncompressed data.  With
`max_msg_size = M > 0`: a non-fin data frame whose accumulated partial
reaches `M` raises `MESSAGE_TOO_BIG` and anything strictly below `M`
accumulates successfully; a fin continuation whose assembled
partial+payload reaches `M` raises `MESSAGE_TOO_BIG`, and strictly below
`M` the uncompressed message is emitted (binary for a recorded binary
opcode, UTF-8-decoded text for a recorded text opcode); a fin TEXT or
BINARY frame starting its own message (empty partial) whose payload
reaches `M` raises `MESSAGE_TOO_BIG`, and strictly below `M` the message
is emitted; with `M = 0` no size check ever fires. -/
theorem c6_size_limit (σ : Type) (D : DecompSpec σ) (mx : Nat) (m : MsgSt σ)
    (payload : Bytes) (op : Nat) (cmp : Option Bool)
    (hop : op = 1 ∨ op = 2 ∨ op = 0) :
    ((handleFrame D mx m ⟨false, some op, payload, cmp⟩).msgs = [] ∧
     (handleFrame D mx m ⟨false, some op, payload, cmp⟩).msg.partialData =
       m.partialData ++ payload ∧
     ((handleFrame D mx m ⟨false, some op, payload, cmp⟩).err = none ↔
       ¬(mx ≠ 0 ∧ mx ≤ (m.partialData ++ payload).length)) ∧
     (mx ≠ 0 → mx ≤ (m.partialData ++ payload).length →
       (handleFrame D mx m ⟨false, some op, payload, cmp⟩).err =
         some ⟨MESSAGE_TOO_BIG, tooBigMsg (m.partialData ++ payload).length mx⟩)) ∧
    (m.msgOpcode = some 2 → ¬cmp = some true →
      ((mx ≠ 0 → mx ≤ (m.partialData ++ payload).length →
        (handleFrame D mx m ⟨true, some 0, payload, cmp⟩).msgs = [] ∧
        (handleFrame D mx m ⟨true, some 0, payload, cmp⟩).err =
          some ⟨MESSAGE_TOO_BIG, tooBigMsg (m.partialData ++ payload).length mx⟩) ∧
       (¬(mx ≠ 0 ∧ mx ≤ (m.partialData ++ payload).length) →
        handleFrame D mx m ⟨true, some 0, payload, cmp⟩ =
          ⟨⟨[], none, m.decompressObj⟩,
           [WSMessage.binary (m.partialData ++ payload) ""], none⟩))) ∧
    (∀ eff, m.msgOpcode = some eff → ¬cmp = some true →
      ((mx ≠ 0 → mx ≤ (m.partialData ++ payload).length →
        (handleFrame D mx m ⟨true, some 0, payload, cmp⟩).msgs = [] ∧
        (handleFrame D mx m ⟨true, some 0, payload, cmp⟩).err =
          some ⟨MESSAGE_TOO_BIG, tooBigMsg (m.partialData ++ payload).length mx⟩) ∧
       (¬(mx ≠ 0 ∧ mx ≤ (m.partialData ++ payload).length) → eff ≠ 1 →
        handleFrame D mx m ⟨true, some 0, payload, cmp⟩ =
          ⟨⟨[], none, m.decompressObj⟩,
           [WSMessage.binary (m.partialData ++ payload) ""], none⟩) ∧
       (¬(mx ≠ 0 ∧ mx ≤ (m.partialData ++ payload).length) → eff = 1 →
        ∀ cps, utf8Decode (m.partialData ++ payload) = some cps →
        handleFrame D mx m ⟨true, some 0, payload, cmp⟩ =
          ⟨⟨[], none, m.decompressObj⟩, [WSMessage.text cps ""], none⟩))) ∧
    ((op = 1 ∨ op = 2) → m.partialData = [] → ¬cmp = some true →
      ((mx ≠ 0 → mx ≤ payload.length →
        (handleFrame D mx m ⟨true, some op, payload, cmp⟩).msgs = [] ∧
        (handleFrame D mx m ⟨true, some op, payload, cmp⟩).err =
          some ⟨MESSAGE_TOO_BIG, tooBigMsg payload.length mx⟩) ∧
       (¬(mx ≠ 0 ∧ mx ≤ payload.length) → op = 2 →
        handleFrame D mx m ⟨true, some op, payload, cmp⟩ =
          ⟨m, [WSMessage.binary payload ""], none⟩) ∧
       (¬(mx ≠ 0 ∧ mx ≤ payload.length) → op = 1 →
        ∀ cps, utf8Decode payload = some cps →
        handleFrame D mx m ⟨true, some op, payload, cmp⟩ =
          ⟨m, [WSMessage.text cps ""], none⟩))) := by
  refine ⟨?_, ?_, ?_, ?_⟩
  · have hsa : (m.partialData ++ payload).length
        = m.partialData.length + payload.length := List.length_append _ _
    refine ⟨?_, ?_, ?_, ?_⟩
    all_goals
      rcases hop with h | h | h <;>
      by_cases hsz : mx ≠ 0 ∧ mx ≤ m.partialData.length + payload.length <;>
      simp [handleFrame, handleData, h, hsz, hsa, tooBigMsg] <;>
      omega
  · intro hrec hcmp
    constructor
    · intro hmx hge
      by_cases hie : m.partialData.isEmpty <;>
        simp_all [handleFrame, handleData, finishData, List.isEmpty_iff, tooBigMsg]
    · intro hsz
      by_cases hie : m.partialData.isEmpty <;>
        simp_all [handleFrame, handleData, finishData, emitData, List.isEmpty_iff]
  · intro eff hrec hcmp
    refine ⟨?_, ?_, ?_⟩
    · intro hmx hge
      by_cases hie : m.partialData.isEmpty <;>
        simp_all [handleFrame, handleData, finishData, List.isEmpty_iff, tooBigMsg]
    · intro hsz heff
      by_cases hie : m.partialData.isEmpty <;>
        simp_all [handleFrame, handleData, finishData, emitData, List.isEmpty_iff]
    · intro hsz heff cps hu
      subst heff
      by_cases hie : m.partialData.isEmpty <;>
        simp_all [handleFrame, handleData, finishData, emitData, List.isEmpty_iff]
  · intro hop2 hpe hcmp
    have hie : m.partialData.isEmpty := by simp [hpe]
    refine ⟨?_, ?_, ?_⟩
    · intro hmx hge
      rcases hop2 with rfl | rfl <;>
        simp_all [handleFrame, handleData, finishData, List.isEmpty_iff, tooBigMsg]
    · intro hsz hopv
      subst hopv
      simp_all [handleFrame, handleData, finishData, emitData, List.isEmpty_iff]
    · intro hsz hopv cps hu
      subst hopv
      simp_all [handleFrame, handleData, finishData, emitData, List.isEmpty_iff]

/-- C6 (witness): with `max_msg_size = 3`: an assembled continuation payload
`[5, 6]` (length 2 < 3) is emitted as binary and an assembled payload of
length exactly 3 raises `MESSAGE_TOO_BIG`; a recorded text message whose
assembly is valid UTF-8 is emitted as text; a single fin binary frame of
length exactly 3 raises `MESSAGE_TOO_BIG` while length 2 is emitted; a
single fin text frame is decoded. -/
theorem c6_witness :
    (handleFrame dUnit 3 ⟨[5], some 2, none⟩ ⟨true, some 0, [6], some false⟩ =
      ⟨⟨[], none, none⟩, [WSMessage.binary [5, 6] ""], none⟩ ∧
    (handleFrame dUnit 3 ⟨[5], some 2, none⟩ ⟨true, some 0, [6, 7], some false⟩).err =
      some ⟨MESSAGE_TOO_BIG, tooBigMsg 3 3⟩) ∧
    handleFrame dUnit 3 ⟨[104], some 1, none⟩ ⟨true, some 0, [105], some false⟩ =
      ⟨⟨[], none, none⟩, [WSMessage.text [104, 105] ""], none⟩ ∧
    (handleFrame dUnit 3 ⟨[], none, none⟩ ⟨true, some 2, [1, 2, 3], some false⟩).err =
      some ⟨MESSAGE_TOO_BIG, tooBigMsg 3 3⟩ ∧
    handleFrame dUnit 3 ⟨[], none, none⟩ ⟨true, some 2, [1, 2], some false⟩ =
      ⟨⟨[], none, none⟩, [WSMessage.binary [1, 2] ""], none⟩ ∧
    handleFrame dUnit 3 ⟨[], none, none⟩ ⟨true, some 1, [104], some false⟩ =
      ⟨⟨[], none, none⟩, [WSMessage.text [104] ""], none⟩ :=
  ⟨⟨((c6_size_limit Unit dUnit 3 ⟨[5], some 2, none⟩ [6] 2 (some false)
      (by decide)).2.1 rfl (by decide)).2 (by decide),
   (((c6_size_limit Unit dUnit 3 ⟨[5], some 2, none⟩ [6, 7] 2 (some false)
      (by decide)).2.1 rfl (by decide)).1 (by decide) (by decide)).2⟩,
   ((c6_size_limit Unit dUnit 3 ⟨[104], some 1, none⟩ [105] 1 (some false)
      (by decide)).2.2.1 1 rfl (by decide)).2.2 (by decide) rfl [104, 105]
      (by decide),
   (((c6_size_limit Unit dUnit 3 ⟨[], none, none⟩ [1, 2, 3] 2 (some false)
      (by decide)).2.2.2 (Or.inr rfl) rfl (by decide)).1 (by decide)
      (by decide)).2,
   ((c6_size_limit Unit dUnit 3 ⟨[], none, none⟩ [1, 2] 2 (some false)
      (by decide)).2.2.2 (Or.inr rfl) rfl (by decide)).2.1 (by decide) rfl,
   ((c6_size_limit Unit dUnit 3 ⟨[], none, none⟩ [104] 1 (some false)
      (by decide)).2.2.2 (Or.inl rfl) rfl (by decide)).2.2 (by decide) rfl
      [104] (by decide)⟩

/-! ### A reference encoder, for byte-level statements about frame sequences -/

/-- The length bytes of the RFC 6455 header for an unmasked frame. -/
def lenBytes (len : Nat) : Bytes :=
  if len ≤ 125 then [len]
  else if len < 65536 then [126, len / 256, len % 256]
  else [127, len / 256 ^ 7 % 256, len / 256 ^ 6 % 256, len / 256 ^ 5 % 256,
        len / 256 ^ 4 % 256, len / 256 ^ 3 % 256, len / 256 ^ 2 % 256,
        len / 256 % 256, len % 256]

/-- The payload-length flag the parser stores for an encoded length. -/
def lenFlag (len : Nat) : Nat :=
  if len ≤ 125 then len else if len < 65536 then 126 else 127

/-- RFC 6455 encoding of one unmasked frame with all RSV bits clear. -/
def encodeFrame (fin : Bool) (op : Nat) (payload : Bytes) : Bytes :=
  (if fin then 128 + op else op) :: lenBytes payload.length ++ payload

/-- `processHeader` on an encoded header (no RSV bits, no mask). -/
theorem processHeader_enc (p : ParseSt) (fin : Bool) (op : Nat) (b1 : Nat)
    (hop : op ≤ 15) (hb1 : b1 < 128) (hctl : op > 7 → fin = true ∧ b1 ≤ 125) :
    processHeader p (if fin then 128 + op else op) b1 =
      .ok { p with
        compressed := if p.frameFin = true ∨ p.compressed = none then some false
                      else p.compressed,
        frameFin := fin, frameOpcode := some op, hasMask := false,
        payloadLengthFlag := b1, state := .length } := by
  cases fin with
  | true =>
    simp only [if_true]
    have hd128 : (128 + op) / 128 % 2 = 1 := by omega
    have hd64 : (128 + op) / 64 % 2 = 0 := by omega
    have hd32 : (128 + op) / 32 % 2 = 0 := by omega
    have hd16 : (128 + op) / 16 % 2 = 0 := by omega
    have hm16 : (128 + op) % 16 = op := by omega
    have hb1d : b1 / 128 % 2 = 0 := by omega
    have hb1m : b1 % 128 = b1 := by omega
    simp only [processHeader, hd128, hd64, hd32, hd16, hm16, hb1d, hb1m]
    rw [if_neg (by simp)]
    rw [if_neg (by simp)]
    rw [if_neg (by intro h; exact absurd ((hctl h.1).2) (by omega))]
    by_cases hcc : p.frameFin = true ∨ p.compressed = none
    · rw [if_pos hcc, if_pos hcc]
      simp
    · rw [if_neg hcc, if_neg hcc]
      rw [if_neg (by simp)]
      simp
  | false =>
    simp only [Bool.false_eq_true, if_false]
    have hd128 : op / 128 % 2 = 0 := by omega
    have hd64 : op / 64 % 2 = 0 := by omega
    have hd32 : op / 32 % 2 = 0 := by omega
    have hd16 : op / 16 % 2 = 0 := by omega
    have hm16 : op % 16 = op := by omega
    have hb1d : b1 / 128 % 2 = 0 := by omega
    have hb1m : b1 % 128 = b1 := by omega
    have hop7 : ¬ op > 7 := by
      intro h
      exact absurd ((hctl h).1) (by simp)
    simp only [processHeader, hd128, hd64, hd32, hd16, hm16, hb1d, hb1m]
    rw [if_neg (by simp)]
    rw [if_neg (by intro h; exact hop7 h.1)]
    rw [if_neg (by intro h; exact hop7 h.1)]
    by_cases hcc : p.frameFin = true ∨ p.compressed = none
    · rw [if_pos hcc]
      simp
      rw [if_pos hcc]
    · rw [if_neg hcc]
      rw [if_neg (by simp)]
      simp
      rw [if_neg hcc]

/-- From `READ_PAYLOAD` with an empty accumulator, no mask, and the payload
length equal to the length of the leading `payload` block, the loop consumes
exactly that block, emits one frame, and continues on the remainder from a
fresh `READ_HEADER` state. -/
theorem ploop_payload_step (q : ParseSt) (payload rest : Bytes)
    (hst : q.state = .payload) (hfp : q.framePayload = [])
    (hmk : q.hasMask = false) (hpl : q.payloadLength = payload.length) :
    ploop q (payload ++ rest) =
      match ploop { q with payloadLength := 0, framePayload := [],
                           state := .header } rest with
      | (r3, .error e) => (r3, .error e)
      | (r3, .ok (fs, left)) =>
        (r3, .ok (⟨q.frameFin, q.frameOpcode, payload, q.compressed⟩ :: fs,
          left)) := by
  rw [ploop_unfold]
  simp only [hst]
  by_cases hr : q.payloadLength ≥ (payload ++ rest).length
  · have hrest : rest = [] := by
      rw [hpl, List.length_append] at hr
      exact List.length_eq_zero.mp (by omega)
    subst hrest
    rw [if_pos hr]
    rw [if_neg (by simp [hpl, List.length_append])]
    rw [ploop_nil_header _ rfl, ploop_nil_header _ rfl]
    simp [hmk, hfp, hpl, List.length_append]
  · rw [if_neg hr]
    rw [hpl, List.take_left, List.drop_left]
    simp [hmk, hfp]

/-- From `READ_PAYLOAD_LENGTH` with flag ≤ 125 and no mask, the loop commits
the flag as the payload length and moves to `READ_PAYLOAD` without consuming
input. -/
theorem ploop_length_small (q : ParseSt) (buf : Bytes)
    (hst : q.state = .length) (hflag : q.payloadLengthFlag ≤ 125)
    (hmk : q.hasMask = false) :
    ploop q buf =
      ploop { q with payloadLength := q.payloadLengthFlag,
                     state := .payload } buf := by
  rw [ploop_unfold]
  simp only [hst]
  rw [if_neg (by omega), if_neg (by omega), hmk]
  rw [if_neg (show ¬ (false = true) from by simp)]

/-- From `READ_PAYLOAD_LENGTH` with flag 126 and no mask, the loop reads a
2-byte big-endian extended length and moves to `READ_PAYLOAD`. -/
theorem ploop_length_ext2 (q : ParseSt) (a b : Nat) (mid : Bytes)
    (hst : q.state = .length) (hflag : q.payloadLengthFlag = 126)
    (hmk : q.hasMask = false) :
    ploop q (a :: b :: mid) =
      ploop { q with payloadLength := a * 256 + b, state := .payload } mid := by
  rw [ploop_unfold]
  simp only [hst]
  rw [if_pos hflag]
  rw [if_pos (show 2 ≤ (a :: b :: mid).length from by simp)]
  rw [show (a :: b :: mid).getD 0 0 = a from rfl,
    show (a :: b :: mid).getD 1 0 = b from rfl,
    show (a :: b :: mid).drop 2 = mid from rfl, hmk]
  rw [if_neg (show ¬ (false = true) from by simp)]

/-- From `READ_PAYLOAD_LENGTH` with flag 127 and no mask, the loop reads an
8-byte big-endian extended length and moves to `READ_PAYLOAD`. -/
theorem ploop_length_ext8 (q : ParseSt) (a1 a2 a3 a4 a5 a6 a7 a8 : Nat)
    (mid : Bytes)
    (hst : q.state = .length) (hflag : q.payloadLengthFlag = 127)
    (hmk : q.hasMask = false) :
    ploop q (a1 :: a2 :: a3 :: a4 :: a5 :: a6 :: a7 :: a8 :: mid) =
      ploop { q with payloadLength := beFold [a1, a2, a3, a4, a5, a6, a7, a8],
                     state := .payload } mid := by
  rw [ploop_unfold]
  simp only [hst]
  rw [if_neg (by omega), if_pos (by omega)]
  rw [if_pos (show 8 ≤ (a1 :: a2 :: a3 :: a4 :: a5 :: a6 :: a7 :: a8 ::
    mid).length from by simp)]
  rw [show (a1 :: a2 :: a3 :: a4 :: a5 :: a6 :: a7 :: a8 :: mid).take 8 =
      [a1, a2, a3, a4, a5, a6, a7, a8] from rfl,
    show (a1 :: a2 :: a3 :: a4 :: a5 :: a6 :: a7 :: a8 :: mid).drop 8 =
      mid from rfl, hmk]
  rw [if_neg (show ¬ (false = true) from by simp)]

/-- Parsing one encoded frame at the start of the buffer: the frame record is
emitted (with the `compressed` flag given by the continuity rule) and parsing
continues on the remaining bytes from a fresh `READ_HEADER` state. -/
theorem ploop_encodeFrame (p : ParseSt) (fin : Bool) (op : Nat)
    (payload rest : Bytes)
    (hst : p.state = .header) (hfp : p.framePayload = [])
    (hop : op ≤ 15) (hctl : op > 7 → fin = true ∧ payload.length ≤ 125)
    (hlen : payload.length < 2 ^ 64) :
    ploop p (encodeFrame fin op payload ++ rest) =
      match ploop { p with
          compressed := if p.frameFin = true ∨ p.compressed = none then some false
                        else p.compressed,
          frameFin := fin, frameOpcode := some op, hasMask := false,
          payloadLengthFlag := lenFlag payload.length, payloadLength := 0,
          framePayload := [], state := .header } rest with
      | (r3, .error e) => (r3, .error e)
      | (r3, .ok (fs, left)) =>
        (r3, .ok (⟨fin, some op, payload,
          if p.frameFin = true ∨ p.compressed = none then some false
          else p.compressed⟩ :: fs, left)) := by
  have step1 : ∀ (mid : Bytes) (b1 : Nat), b1 < 128 → (op > 7 → b1 ≤ 125) →
      ploop p ((if fin then 128 + op else op) :: b1 :: mid) =
        ploop { p with
          compressed := if p.frameFin = true ∨ p.compressed = none then some false
                        else p.compressed,
          frameFin := fin, frameOpcode := some op, hasMask := false,
          payloadLengthFlag := b1, state := .length } mid := by
    intro mid b1 hb1 hc
    rw [ploop_unfold]
    simp only [hst]
    rw [if_pos (by simp)]
    have hgd0 : ((if fin then 128 + op else op) :: b1 :: mid).getD 0 0 =
        (if fin then 128 + op else op) := rfl
    have hgd1 : ((if fin then 128 + op else op) :: b1 :: mid).getD 1 0 = b1 := rfl
    rw [hgd0, hgd1,
      processHeader_enc p fin op b1 hop hb1 (fun h => ⟨(hctl h).1, hc h⟩)]
    rfl
  rcases Nat.lt_or_ge payload.length 126 with hA | hBC
  · -- 1-byte length
    have hflag : lenFlag payload.length = payload.length := by
      simp [lenFlag, show payload.length ≤ 125 from by omega]
    rw [show encodeFrame fin op payload ++ rest =
      (if fin then 128 + op else op) :: payload.length :: (payload ++ rest) from by
        simp [encodeFrame, lenBytes, show payload.length ≤ 125 from by omega]]
    rw [step1 (payload ++ rest) payload.length (by omega) (fun h => (hctl h).2)]
    rw [ploop_length_small]
    · rw [ploop_payload_step]
      · rw [hflag]
      · rfl
      · exact hfp
      · rfl
      · rfl
    · rfl
    · exact show payload.length ≤ 125 from by omega
    · rfl
  · rcases Nat.lt_or_ge payload.length 65536 with hB | hC
    · -- 2-byte extended length
      have hflag : lenFlag payload.length = 126 := by
        simp [lenFlag, show ¬ payload.length ≤ 125 from by omega, hB]
      have hctl7 : ¬ op > 7 := fun h => absurd (hctl h).2 (by omega)
      rw [show encodeFrame fin op payload ++ rest =
        (if fin then 128 + op else op) :: 126 :: (payload.length / 256 ::
          payload.length % 256 :: (payload ++ rest)) from by
          simp [encodeFrame, lenBytes, show ¬ payload.length ≤ 125 from by omega,
            hB]]
      rw [step1 _ 126 (by omega) (fun h => absurd h hctl7)]
      rw [ploop_length_ext2]
      · rw [ploop_payload_step]
        · rw [hflag]
        · rfl
        · exact hfp
        · rfl
        · exact show payload.length / 256 * 256 + payload.length % 256 =
            payload.length from by omega
      · rfl
      · rfl
      · rfl
    · -- 8-byte extended length
      have hflag : lenFlag payload.length = 127 := by
        simp [lenFlag, show ¬ payload.length ≤ 125 from by omega,
          show ¬ payload.length < 65536 from by omega]
      have hctl7 : ¬ op > 7 := fun h => absurd (hctl h).2 (by omega)
      rw [show encodeFrame fin op payload ++ rest =
        (if fin then 128 + op else op) :: 127 ::
          (payload.length / 256 ^ 7 % 256 :: payload.length / 256 ^ 6 % 256 ::
           payload.length / 256 ^ 5 % 256 :: payload.length / 256 ^ 4 % 256 ::
           payload.length / 256 ^ 3 % 256 :: payload.length / 256 ^ 2 % 256 ::
           payload.length / 256 % 256 :: payload.length % 256 ::
           (payload ++ rest)) from by
          simp [encodeFrame, lenBytes, show ¬ payload.length ≤ 125 from by omega,
            show ¬ payload.length < 65536 from by omega]]
      rw [step1 _ 127 (by omega) (fun h => absurd h hctl7)]
      rw [ploop_length_ext8]
      · rw [ploop_payload_step]
        · rw [hflag]
        · rfl
        · exact hfp
        · rfl
        · show beFold [payload.length / 256 ^ 7 % 256,
            payload.length / 256 ^ 6 % 256, payload.length / 256 ^ 5 % 256,
            payload.length / 256 ^ 4 % 256, payload.length / 256 ^ 3 % 256,
            payload.length / 256 ^ 2 % 256, payload.length / 256 % 256,
            payload.length % 256] = payload.length
          have h2 : (256 : Nat) ^ 2 = 65536 := by norm_num
          have h3 : (256 : Nat) ^ 3 = 16777216 := by norm_num
          have h4 : (256 : Nat) ^ 4 = 4294967296 := by norm_num
          have h5 : (256 : Nat) ^ 5 = 1099511627776 := by norm_num
          have h6 : (256 : Nat) ^ 6 = 281474976710656 := by norm_num
          have h7 : (256 : Nat) ^ 7 = 72057594037927936 := by norm_num
          have hl : payload.length < 18446744073709551616 := by
            have h64 : (2 : Nat) ^ 64 = 18446744073709551616 := by norm_num
            omega
          simp only [beFold, List.foldl, h2, h3, h4, h5, h6, h7]
          omega
      · rfl
      · rfl
      · rfl

/-- Encoding a whole list of (fin, opcode, payload) frames back to back. -/
def encFrames : List (Bool × Nat × Bytes) → Bytes
  | [] => []
  | f :: fs => encodeFrame f.1 f.2.1 f.2.2 ++ encFrames fs

/-- Parsing a buffer of back-to-back encoded frames (all RSV bits clear) from
a fresh header state yields exactly those frames, each with
`compressed = some false`, no leftover, and a state ready for more frames. -/
theorem ploop_encFrames (l : List (Bool × Nat × Bytes)) (p : ParseSt)
    (hst : p.state = .header) (hfp : p.framePayload = [])
    (hcmp : p.compressed = none ∨ p.compressed = some false)
    (hvalid : ∀ f ∈ l, f.2.1 ≤ 15 ∧ (f.2.1 > 7 → f.1 = true ∧
      f.2.2.length ≤ 125) ∧ f.2.2.length < 2 ^ 64) :
    ∃ p2, ploop p (encFrames l) =
        (p2, .ok (l.map (fun f => ⟨f.1, some f.2.1, f.2.2, some false⟩), [])) ∧
      p2.state = .header ∧ p2.framePayload = [] ∧
      (p2.compressed = none ∨ p2.compressed = some false) := by
  revert p
  induction l with
  | nil =>
    intro p hst hfp hcmp
    exact ⟨p, ploop_nil_header p hst, hst, hfp, hcmp⟩
  | cons f fs ih =>
    intro p hst hfp hcmp
    have hv := hvalid f (List.mem_cons_self f fs)
    have hc1 : (if p.frameFin = true ∨ p.compressed = none then some false
        else p.compressed) = some false := by
      rcases hcmp with h | h
      · simp [h]
      · by_cases hf : p.frameFin = true <;> simp [h, hf]
    obtain ⟨p2, heq, h1, h2, h3⟩ := ih
      (fun g hg => hvalid g (List.mem_cons_of_mem f hg)) { p with
        compressed := if p.frameFin = true ∨ p.compressed = none then some false
                      else p.compressed,
        frameFin := f.1, frameOpcode := some f.2.1, hasMask := false,
        payloadLengthFlag := lenFlag f.2.2.length, payloadLength := 0,
        framePayload := [], state := .header }
      rfl rfl (Or.inr hc1)
    refine ⟨p2, ?_, h1, h2, h3⟩
    rw [show encFrames (f :: fs) =
      encodeFrame f.1 f.2.1 f.2.2 ++ encFrames fs from rfl]
    rw [ploop_encodeFrame p f.1 f.2.1 f.2.2 (encFrames fs) hst hfp
      hv.1 hv.2.1 hv.2.2]
    rw [heq, hc1]
    rfl

/-- `_handle_close` neither touches the message-side state nor reads it:
its messages and error depend only on the frame. -/
theorem handleClose_indep (m m' : MsgSt σ) (f : Frame) :
    handleClose m f = ⟨m, (handleClose m' f).msgs, (handleClose m' f).err⟩ := by
  rcases hq : f.payload with _ | ⟨b0, q1⟩
  · simp [handleClose, hq]
  · rcases q1 with _ | ⟨b1, rest⟩
    · simp [handleClose, hq]
    · simp only [handleClose, hq]
      by_cases hP : b0 * 256 + b1 < 3000 ∧ b0 * 256 + b1 ∉ ALLOWED_CLOSE_CODES
      · rw [if_pos hP, if_pos hP]
      · rw [if_neg hP, if_neg hP]
        rcases hu : utf8Decode rest with _ | cps <;> simp

/-- A fin control frame (close, ping or pong) passes through `_feed_data`
without touching the message-side state, and the message it produces (and
whether it errors) is independent of that state. -/
theorem handleFrame_ctrl (D : DecompSpec σ) (mx : Nat) (m m' : MsgSt σ)
    (c : Nat) (q : Bytes) (cc : Option Bool) (hc : c = 8 ∨ c = 9 ∨ c = 10) :
    handleFrame D mx m ⟨true, some c, q, cc⟩ =
      ⟨m, (handleFrame D mx m' ⟨true, some c, q, cc⟩).msgs,
          (handleFrame D mx m' ⟨true, some c, q, cc⟩).err⟩ := by
  rcases hc with h | h | h <;> subst h
  · exact handleClose_indep m m' ⟨true, some 8, q, cc⟩
  · rfl
  · rfl

/-- A non-fin data frame never emits a message: it only accumulates into
`_partial` (and possibly raises the size error). -/
theorem handleData_nonfin (D : DecompSpec σ) (mx : Nat) (m : MsgSt σ)
    (f : Frame) (op : Nat) (hf : f.fin = false) :
    (handleData D mx m f op).msgs = [] := by
  simp only [handleData, hf, Bool.false_eq_true, if_false]
  split <;> split <;> rfl

/-- A single successfully parsed chunk: the run's messages and sink error
are exactly those of the `_feed_data` frame loop on the parsed frames. -/
theorem runChunks_single_ok (D : DecompSpec σ) (r : Reader σ) (S : Bytes)
    (fs : List Frame) (p2 : ParseSt)
    (hexc : r.exc = none)
    (hp : parseFrame r.parse S = (p2, .ok fs)) :
    (runChunks D r [S]).msgs = (processFrames D r.maxMsgSize r.msg fs).msgs ∧
    (runChunks D r [S]).sinkExc = (processFrames D r.maxMsgSize r.msg fs).err := by
  simp only [runChunks, feedData, hexc, feedDataAux, hp]
  rcases hq : processFrames D r.maxMsgSize r.msg fs with ⟨m2, msgs, err⟩
  cases err <;> simp [hq]

/-- Inserting a fin control frame between two frames of the `_feed_data`
loop: if the first frame emits no message and the control frame does not
error, the control frame's message is inserted in front and the loop's
error is unchanged. -/
theorem processFrames_ctrl_insert (D : DecompSpec σ) (mx : Nat) (m : MsgSt σ)
    (F1 C F2 : Frame) (c : Nat) (q : Bytes)
    (hC : C = ⟨true, some c, q, some false⟩) (hc : c = 8 ∨ c = 9 ∨ c = 10)
    (hF1msgs : (handleFrame D mx m F1).msgs = [])
    (hCerr : (handleFrame D mx m C).err = none)
    (hbase : (processFrames D mx m [F1, F2]).err = none) :
    (processFrames D mx m [F1, C, F2]).msgs =
      (handleFrame D mx m C).msgs ++ (processFrames D mx m [F1, F2]).msgs ∧
    (processFrames D mx m [F1, C, F2]).err =
      (processFrames D mx m [F1, F2]).err := by
  subst hC
  rcases hs1 : handleFrame D mx m F1 with ⟨m1, ms1, err1⟩
  have hms1 : ms1 = [] := by rw [hs1] at hF1msgs; exact hF1msgs
  subst hms1
  cases err1 with
  | some e =>
    exfalso
    simp only [processFrames, hs1] at hbase
    simp at hbase
  | none =>
    have hctl := handleFrame_ctrl D mx m1 m c q (some false) hc
    rcases hs3 : processFrames D mx m1 [F2] with ⟨m3, ms3, err3⟩
    constructor <;> simp only [processFrames, hs1, hctl, hCerr, hs3] <;> simp

/-- C3: a compressed fragmented message with an interleaved ping is NOT
delivered with identical content: the continuity rule in `process_header`
is keyed on `_frame_fin`, so the fin ping resets `_compressed` and the
final fragment is delivered without decompression.  Stream 1 is a
compressed (RSV1) binary fragment `[1]` + fin continuation `[2]`; stream 2
is the same with an empty ping between the fragments.  Neither run errors,
yet the data message differs: decompressed `[1,2,0,0,255,255]` (the unit
decompressor echoes its input including the deflate trailing bytes) versus
raw `[1,2]`. -/
theorem c3_counterexample :
    (runChunks dUnit (mkReader Unit 0 true) [[66, 1, 1, 128, 1, 2]]).msgs =
      [WSMessage.binary [1, 2, 0, 0, 255, 255] ""] ∧
    (runChunks dUnit (mkReader Unit 0 true)
        [[66, 1, 1, 137, 0, 128, 1, 2]]).msgs =
      [WSMessage.ping [] "", WSMessage.binary [1, 2] ""] ∧
    (runChunks dUnit (mkReader Unit 0 true) [[66, 1, 1, 128, 1, 2]]).sinkExc =
      none ∧
    (runChunks dUnit (mkReader Unit 0 true)
        [[66, 1, 1, 137, 0, 128, 1, 2]]).sinkExc = none ∧
    WSMessage.binary ([1, 2] : Bytes) "" ≠
      WSMessage.binary ([1, 2, 0, 0, 255, 255] : Bytes) "" := by
  refine ⟨?_, ?_, ?_, ?_, ?_⟩ <;> decide

/-! ### A masked frame encoder: the mask-bit / mask-key / masked-payload
wire format, generalizing `encodeFrame` (whose frames are unmasked) -/

/-- The extended-length bytes of the RFC 6455 header (what follows the
flag byte). -/
def extLenBytes (len : Nat) : Bytes :=
  if len ≤ 125 then []
  else if len < 65536 then [len / 256, len % 256]
  else [len / 256 ^ 7 % 256, len / 256 ^ 6 % 256, len / 256 ^ 5 % 256,
        len / 256 ^ 4 % 256, len / 256 ^ 3 % 256, len / 256 ^ 2 % 256,
        len / 256 % 256, len % 256]

theorem lenBytes_eq (len : Nat) :
    lenBytes len = lenFlag len :: extLenBytes len := by
  unfold lenBytes lenFlag extLenBytes
  split_ifs <;> rfl

/-- RFC 6455 encoding of one frame with all RSV bits clear; `mk = []` gives
an unmasked frame, a 4-byte `mk` a masked one (mask bit set, the key, the
payload XORed with the cycled key). -/
def encodeFrameM (fin : Bool) (op : Nat) (mk payload : Bytes) : Bytes :=
  (if fin then 128 + op else op) ::
  ((if mk.isEmpty then 0 else 128) + lenFlag payload.length) ::
  (extLenBytes payload.length ++ mk ++
    (if mk.isEmpty then payload else websocketMask mk payload))

theorem encodeFrameM_nil (fin : Bool) (op : Nat) (payload : Bytes) :
    encodeFrameM fin op [] payload = encodeFrame fin op payload := by
  simp [encodeFrameM, encodeFrame, lenBytes_eq]

theorem websocketMask_length (mk data : Bytes) :
    (websocketMask mk data).length = data.length := by
  simp [websocketMask, List.length_zipWith]

/-- Applying the cycled-XOR mask twice restores the data: unmasking a masked
payload gives the original payload. -/
theorem websocketMask_involutive (mk data : Bytes) :
    websocketMask mk (websocketMask mk data) = data := by
  apply List.ext_getElem
  · simp [websocketMask, List.length_zipWith]
  · intro i h1 h2
    simp only [websocketMask, List.length_zipWith, List.length_range]
    rw [List.getElem_zipWith, List.getElem_zipWith, List.getElem_range,
      List.getElem_range]
    exact Nat.xor_cancel_right _ _

/-- `processHeader` on an encoded header with all RSV bits clear: `mb` is
the mask bit, `flag` the 7-bit length field. -/
theorem processHeader_encM (p : ParseSt) (fin mb : Bool) (op flag : Nat)
    (hop : op ≤ 15) (hflag : flag < 128)
    (hctl : op > 7 → fin = true ∧ flag ≤ 125) :
    processHeader p (if fin then 128 + op else op)
        ((if mb then 128 else 0) + flag) =
      .ok { p with
        compressed := if p.frameFin = true ∨ p.compressed = none then some false
                      else p.compressed,
        frameFin := fin, frameOpcode := some op, hasMask := mb,
        payloadLengthFlag := flag, state := .length } := by
  cases mb with
  | false =>
    simp only [Bool.false_eq_true, if_false, Nat.zero_add]
    exact processHeader_enc p fin op flag hop hflag hctl
  | true =>
    simp only [if_true]
    have hb1d : (128 + flag) / 128 % 2 = 1 := by omega
    have hb1m : (128 + flag) % 128 = flag := by omega
    cases fin with
    | true =>
      simp only [if_true]
      have hd128 : (128 + op) / 128 % 2 = 1 := by omega
      have hd64 : (128 + op) / 64 % 2 = 0 := by omega
      have hd32 : (128 + op) / 32 % 2 = 0 := by omega
      have hd16 : (128 + op) / 16 % 2 = 0 := by omega
      have hm16 : (128 + op) % 16 = op := by omega
      simp only [processHeader, hd128, hd64, hd32, hd16, hm16, hb1d, hb1m]
      rw [if_neg (by simp)]
      rw [if_neg (by simp)]
      rw [if_neg (by intro h; exact absurd ((hctl h.1).2) (by omega))]
      by_cases hcc : p.frameFin = true ∨ p.compressed = none
      · rw [if_pos hcc, if_pos hcc]
        simp
      · rw [if_neg hcc, if_neg hcc]
        rw [if_neg (by simp)]
        simp
    | false =>
      simp only [Bool.false_eq_true, if_false]
      have hd128 : op / 128 % 2 = 0 := by omega
      have hd64 : op / 64 % 2 = 0 := by omega
      have hd32 : op / 32 % 2 = 0 := by omega
      have hd16 : op / 16 % 2 = 0 := by omega
      have hm16 : op % 16 = op := by omega
      have hop7 : ¬ op > 7 := by
        intro h
        exact absurd ((hctl h).1) (by simp)
      simp only [processHeader, hd128, hd64, hd32, hd16, hm16, hb1d, hb1m]
      rw [if_neg (by simp)]
      rw [if_neg (by intro h; exact hop7 h.1)]
      rw [if_neg (by intro h; exact hop7 h.1)]
      by_cases hcc : p.frameFin = true ∨ p.compressed = none
      · rw [if_pos hcc, if_pos hcc]
        simp
      · rw [if_neg hcc, if_neg hcc]
        rw [if_neg (by simp)]
        simp

/-- From `READ_PAYLOAD_LENGTH` with flag ≤ 125 and the mask bit set, the
loop commits the flag as the payload length and moves to
`READ_PAYLOAD_MASK` without consuming input. -/
theorem ploop_length_small_mask (q : ParseSt) (buf : Bytes)
    (hst : q.state = .length) (hflag : q.payloadLengthFlag ≤ 125)
    (hmk : q.hasMask = true) :
    ploop q buf =
      ploop { q with payloadLength := q.payloadLengthFlag,
                     state := .mask } buf := by
  rw [ploop_unfold]
  simp only [hst]
  rw [if_neg (by omega), if_neg (by omega), hmk]
  rw [if_pos rfl]

/-- From `READ_PAYLOAD_LENGTH` with flag 126 and the mask bit set, the loop
reads a 2-byte big-endian extended length and moves to `READ_PAYLOAD_MASK`. -/
theorem ploop_length_ext2_mask (q : ParseSt) (a b : Nat) (mid : Bytes)
    (hst : q.state = .length) (hflag : q.payloadLengthFlag = 126)
    (hmk : q.hasMask = true) :
    ploop q (a :: b :: mid) =
      ploop { q with payloadLength := a * 256 + b, state := .mask } mid := by
  rw [ploop_unfold]
  simp only [hst]
  rw [if_pos hflag]
  rw [if_pos (show 2 ≤ (a :: b :: mid).length from by simp)]
  rw [show (a :: b :: mid).getD 0 0 = a from rfl,
    show (a :: b :: mid).getD 1 0 = b from rfl,
    show (a :: b :: mid).drop 2 = mid from rfl, hmk]
  rw [if_pos rfl]

/-- From `READ_PAYLOAD_LENGTH` with flag 127 and the mask bit set, the loop
reads an 8-byte big-endian extended length and moves to `READ_PAYLOAD_MASK`. -/
theorem ploop_length_ext8_mask (q : ParseSt) (a1 a2 a3 a4 a5 a6 a7 a8 : Nat)
    (mid : Bytes)
    (hst : q.state = .length) (hflag : q.payloadLengthFlag = 127)
    (hmk : q.hasMask = true) :
    ploop q (a1 :: a2 :: a3 :: a4 :: a5 :: a6 :: a7 :: a8 :: mid) =
      ploop { q with payloadLength := beFold [a1, a2, a3, a4, a5, a6, a7, a8],
                     state := .mask } mid := by
  rw [ploop_unfold]
  simp only [hst]
  rw [if_neg (by omega), if_pos (by omega)]
  rw [if_pos (show 8 ≤ (a1 :: a2 :: a3 :: a4 :: a5 :: a6 :: a7 :: a8 ::
    mid).length from by simp)]
  rw [show (a1 :: a2 :: a3 :: a4 :: a5 :: a6 :: a7 :: a8 :: mid).take 8 =
      [a1, a2, a3, a4, a5, a6, a7, a8] from rfl,
    show (a1 :: a2 :: a3 :: a4 :: a5 :: a6 :: a7 :: a8 :: mid).drop 8 =
      mid from rfl, hmk]
  rw [if_pos rfl]

/-- `READ_PAYLOAD_MASK` consumes the 4 mask-key bytes and moves to
`READ_PAYLOAD`. -/
theorem ploop_mask_step (q : ParseSt) (k1 k2 k3 k4 : Nat) (mid : Bytes)
    (hst : q.state = .mask) :
    ploop q (k1 :: k2 :: k3 :: k4 :: mid) =
      ploop { q with frameMask := some [k1, k2, k3, k4],
                     state := .payload } mid := by
  rw [ploop_unfold]
  simp only [hst]
  rw [if_pos (show 4 ≤ (k1 :: k2 :: k3 :: k4 :: mid).length from by simp)]
  rw [show (k1 :: k2 :: k3 :: k4 :: mid).take 4 = [k1, k2, k3, k4] from rfl,
    show (k1 :: k2 :: k3 :: k4 :: mid).drop 4 = mid from rfl]

/-- The masked variant of `ploop_payload_step`: the loop consumes the
payload block and emits the frame with the unmasking XOR applied. -/
theorem ploop_payload_stepM (q : ParseSt) (payload rest : Bytes)
    (hst : q.state = .payload) (hfp : q.framePayload = [])
    (hmk : q.hasMask = true) (hpl : q.payloadLength = payload.length) :
    ploop q (payload ++ rest) =
      match ploop { q with payloadLength := 0, framePayload := [],
                           state := .header } rest with
      | (r3, .error e) => (r3, .error e)
      | (r3, .ok (fs, left)) =>
        (r3, .ok (⟨q.frameFin, q.frameOpcode,
          websocketMask (q.frameMask.getD []) payload, q.compressed⟩ :: fs,
          left)) := by
  rw [ploop_unfold]
  simp only [hst]
  by_cases hr : q.payloadLength ≥ (payload ++ rest).length
  · have hrest : rest = [] := by
      rw [hpl, List.length_append] at hr
      exact List.length_eq_zero.mp (by omega)
    subst hrest
    rw [if_pos hr]
    rw [if_neg (by simp [hpl, List.length_append])]
    rw [ploop_nil_header _ rfl, ploop_nil_header _ rfl]
    simp [hmk, hfp, hpl, List.length_append]
  · rw [if_neg hr]
    rw [hpl, List.take_left, List.drop_left]
    simp [hmk, hfp]

theorem processHeader_encMask (p : ParseSt) (fin : Bool) (op flag : Nat)
    (hop : op ≤ 15) (hflag : flag < 128)
    (hctl : op > 7 → fin = true ∧ flag ≤ 125) :
    processHeader p (if fin then 128 + op else op) (128 + flag) =
      .ok { p with
        compressed := if p.frameFin = true ∨ p.compressed = none then some false
                      else p.compressed,
        frameFin := fin, frameOpcode := some op, hasMask := true,
        payloadLengthFlag := flag, state := .length } := by
  have h := processHeader_encM p fin true op flag hop hflag hctl
  simpa using h

/-- Parsing one encoded (possibly masked) frame at the start of the buffer:
the frame record is emitted with its payload unmasked, and parsing continues
on the remaining bytes from a fresh `READ_HEADER` state. -/
theorem ploop_encodeFrameM (p : ParseSt) (fin : Bool) (op : Nat)
    (mk payload rest : Bytes)
    (hst : p.state = .header) (hfp : p.framePayload = [])
    (hop : op ≤ 15) (hctl : op > 7 → fin = true ∧ payload.length ≤ 125)
    (hlen : payload.length < 2 ^ 64)
    (hmk : mk = [] ∨ mk.length = 4) :
    ploop p (encodeFrameM fin op mk payload ++ rest) =
      match ploop { p with
          compressed := if p.frameFin = true ∨ p.compressed = none then some false
                        else p.compressed,
          frameFin := fin, frameOpcode := some op, hasMask := ! mk.isEmpty,
          frameMask := if mk.isEmpty then p.frameMask else some mk,
          payloadLengthFlag := lenFlag payload.length, payloadLength := 0,
          framePayload := [], state := .header } rest with
      | (r3, .error e) => (r3, .error e)
      | (r3, .ok (fs, left)) =>
        (r3, .ok (⟨fin, some op, payload,
          if p.frameFin = true ∨ p.compressed = none then some false
          else p.compressed⟩ :: fs, left)) := by
  rcases hmk with rfl | h4
  · rw [encodeFrameM_nil]
    rw [ploop_encodeFrame p fin op payload rest hst hfp hop hctl hlen]
    rfl
  · rcases mk with _ | ⟨k1, _ | ⟨k2, _ | ⟨k3, _ | ⟨k4, _ | ⟨k5, mk⟩⟩⟩⟩⟩ <;>
      simp only [List.length_nil, List.length_cons] at h4 <;> try omega
    have step1 : ∀ (mid : Bytes) (flag : Nat), flag < 128 →
        (op > 7 → flag ≤ 125) →
        ploop p ((if fin then 128 + op else op) :: (128 + flag) :: mid) =
          ploop { p with
            compressed := if p.frameFin = true ∨ p.compressed = none
                          then some false else p.compressed,
            frameFin := fin, frameOpcode := some op, hasMask := true,
            payloadLengthFlag := flag, state := .length } mid := by
      intro mid flag hf hc
      rw [ploop_unfold]
      simp only [hst]
      rw [if_pos (by simp)]
      have hgd0 : ((if fin then 128 + op else op) :: (128 + flag) :: mid).getD
          0 0 = (if fin then 128 + op else op) := rfl
      have hgd1 : ((if fin then 128 + op else op) :: (128 + flag) :: mid).getD
          1 0 = 128 + flag := rfl
      rw [hgd0, hgd1,
        processHeader_encMask p fin op flag hop hf (fun h => ⟨(hctl h).1, hc h⟩)]
      rfl
    rcases Nat.lt_or_ge payload.length 126 with hA | hBC
    · -- 1-byte length
      have hflag : lenFlag payload.length = payload.length := by
        simp [lenFlag, show payload.length ≤ 125 from by omega]
      rw [show encodeFrameM fin op [k1, k2, k3, k4] payload ++ rest =
        (if fin then 128 + op else op) :: (128 + payload.length) ::
          (k1 :: k2 :: k3 :: k4 ::
            (websocketMask [k1, k2, k3, k4] payload ++ rest)) from by
          simp [encodeFrameM, extLenBytes, lenFlag,
            show payload.length ≤ 125 from by omega]]
      rw [step1 _ payload.length (by omega) (fun h => (hctl h).2)]
      rw [ploop_length_small_mask]
      · rw [ploop_mask_step]
        · rw [ploop_payload_stepM]
          · simp only [Option.getD_some]
            rw [websocketMask_involutive, hflag]
            rfl
          · rfl
          · exact hfp
          · rfl
          · exact (websocketMask_length _ _).symm
        · rfl
      · rfl
      · exact show payload.length ≤ 125 from by omega
      · rfl
    · rcases Nat.lt_or_ge payload.length 65536 with hB | hC
      · -- 2-byte extended length
        have hflag : lenFlag payload.length = 126 := by
          simp [lenFlag, show ¬ payload.length ≤ 125 from by omega, hB]
        have hctl7 : ¬ op > 7 := fun h => absurd (hctl h).2 (by omega)
        rw [show encodeFrameM fin op [k1, k2, k3, k4] payload ++ rest =
          (if fin then 128 + op else op) :: (128 + 126) ::
            (payload.length / 256 :: payload.length % 256 ::
              (k1 :: k2 :: k3 :: k4 ::
                (websocketMask [k1, k2, k3, k4] payload ++ rest))) from by
            simp [encodeFrameM, extLenBytes, lenFlag,
              show ¬ payload.length ≤ 125 from by omega, hB]]
        rw [step1 _ 126 (by omega) (fun h => absurd h hctl7)]
        rw [ploop_length_ext2_mask]
        · rw [ploop_mask_step]
          · rw [ploop_payload_stepM]
            · simp only [Option.getD_some]
              rw [websocketMask_involutive, hflag]
              rfl
            · rfl
            · exact hfp
            · rfl
            · exact show payload.length / 256 * 256 + payload.length % 256 =
                (websocketMask [k1, k2, k3, k4] payload).length from by
                rw [websocketMask_length]; omega
          · rfl
        · rfl
        · rfl
        · rfl
      · -- 8-byte extended length
        have hflag : lenFlag payload.length = 127 := by
          simp [lenFlag, show ¬ payload.length ≤ 125 from by omega,
            show ¬ payload.length < 65536 from by omega]
        have hctl7 : ¬ op > 7 := fun h => absurd (hctl h).2 (by omega)
        rw [show encodeFrameM fin op [k1, k2, k3, k4] payload ++ rest =
          (if fin then 128 + op else op) :: (128 + 127) ::
            (payload.length / 256 ^ 7 % 256 :: payload.length / 256 ^ 6 % 256 ::
             payload.length / 256 ^ 5 % 256 :: payload.length / 256 ^ 4 % 256 ::
             payload.length / 256 ^ 3 % 256 :: payload.length / 256 ^ 2 % 256 ::
             payload.length / 256 % 256 :: payload.length % 256 ::
              (k1 :: k2 :: k3 :: k4 ::
                (websocketMask [k1, k2, k3, k4] payload ++ rest))) from by
            simp [encodeFrameM, extLenBytes, lenFlag,
              show ¬ payload.length ≤ 125 from by omega,
              show ¬ payload.length < 65536 from by omega]]
        rw [step1 _ 127 (by omega) (fun h => absurd h hctl7)]
        rw [ploop_length_ext8_mask]
        · rw [ploop_mask_step]
          · rw [ploop_payload_stepM]
            · simp only [Option.getD_some]
              rw [websocketMask_involutive, hflag]
              rfl
            · rfl
            · exact hfp
            · rfl
            · show beFold [payload.length / 256 ^ 7 % 256,
                payload.length / 256 ^ 6 % 256, payload.length / 256 ^ 5 % 256,
                payload.length / 256 ^ 4 % 256, payload.length / 256 ^ 3 % 256,
                payload.length / 256 ^ 2 % 256, payload.length / 256 % 256,
                payload.length % 256] =
                  (websocketMask [k1, k2, k3, k4] payload).length
              rw [websocketMask_length]
              have h2 : (256 : Nat) ^ 2 = 65536 := by norm_num
              have h3 : (256 : Nat) ^ 3 = 16777216 := by norm_num
              have h4 : (256 : Nat) ^ 4 = 4294967296 := by norm_num
              have h5 : (256 : Nat) ^ 5 = 1099511627776 := by norm_num
              have h6 : (256 : Nat) ^ 6 = 281474976710656 := by norm_num
              have h7 : (256 : Nat) ^ 7 = 72057594037927936 := by norm_num
              have hl : payload.length < 18446744073709551616 := by
                have h64 : (2 : Nat) ^ 64 = 18446744073709551616 := by norm_num
                omega
              simp only [beFold, List.foldl, h2, h3, h4, h5, h6, h7]
              omega
          · rfl
        · rfl
        · rfl
        · rfl

/-- Encoding a list of (fin, opcode, mask, payload) frames back to back;
an empty mask means an unmasked frame. -/
def encFramesM : List (Bool × Nat × Bytes × Bytes) → Bytes
  | [] => []
  | f :: fs => encodeFrameM f.1 f.2.1 f.2.2.1 f.2.2.2 ++ encFramesM fs

/-- Parsing a buffer of back-to-back encoded frames (all RSV bits clear,
masked or not) from a fresh header state yields exactly those frames with
their payloads unmasked, each with `compressed = some false`, no leftover,
and a state ready for more frames. -/
theorem ploop_encFramesM (l : List (Bool × Nat × Bytes × Bytes)) (p : ParseSt)
    (hst : p.state = .header) (hfp : p.framePayload = [])
    (hcmp : p.compressed = none ∨ p.compressed = some false)
    (hvalid : ∀ f ∈ l, f.2.1 ≤ 15 ∧ (f.2.1 > 7 → f.1 = true ∧
      f.2.2.2.length ≤ 125) ∧ f.2.2.2.length < 2 ^ 64 ∧
      (f.2.2.1 = [] ∨ f.2.2.1.length = 4)) :
    ∃ p2, ploop p (encFramesM l) =
        (p2, .ok (l.map (fun f =>
          ⟨f.1, some f.2.1, f.2.2.2, some false⟩), [])) ∧
      p2.state = .header ∧ p2.framePayload = [] ∧
      (p2.compressed = none ∨ p2.compressed = some false) := by
  revert p
  induction l with
  | nil =>
    intro p hst hfp hcmp
    exact ⟨p, ploop_nil_header p hst, hst, hfp, hcmp⟩
  | cons f fs ih =>
    intro p hst hfp hcmp
    have hv := hvalid f (List.mem_cons_self f fs)
    have hc1 : (if p.frameFin = true ∨ p.compressed = none then some false
        else p.compressed) = some false := by
      rcases hcmp with h | h
      · simp [h]
      · by_cases hf : p.frameFin = true <;> simp [h, hf]
    obtain ⟨p2, heq, h1, h2, h3⟩ := ih
      (fun g hg => hvalid g (List.mem_cons_of_mem f hg)) { p with
        compressed := if p.frameFin = true ∨ p.compressed = none then some false
                      else p.compressed,
        frameFin := f.1, frameOpcode := some f.2.1,
        hasMask := ! f.2.2.1.isEmpty,
        frameMask := if f.2.2.1.isEmpty then p.frameMask else some f.2.2.1,
        payloadLengthFlag := lenFlag f.2.2.2.length, payloadLength := 0,
        framePayload := [], state := .header }
      rfl rfl (Or.inr hc1)
    refine ⟨p2, ?_, h1, h2, h3⟩
    rw [show encFramesM (f :: fs) =
      encodeFrameM f.1 f.2.1 f.2.2.1 f.2.2.2 ++ encFramesM fs from rfl]
    rw [ploop_encodeFrameM p f.1 f.2.1 f.2.2.1 f.2.2.2 (encFramesM fs) hst hfp
      hv.1 hv.2.1 hv.2.2.1 hv.2.2.2]
    rw [heq, hc1]
    rfl

/-- A non-fin data frame (text, binary or continuation) never emits a
message, whatever the message-layer state. -/
theorem handleFrame_nonfin_data (D : DecompSpec σ) (mx : Nat) (m : MsgSt σ)
    (op' : Nat) (d : Bytes) (cc : Option Bool)
    (hop : op' = 0 ∨ op' = 1 ∨ op' = 2) :
    (handleFrame D mx m ⟨false, some op', d, cc⟩).msgs = [] := by
  rcases hop with rfl | rfl | rfl
  · exact handleData_nonfin D mx m ⟨false, some 0, d, cc⟩ 0 rfl
  · exact handleData_nonfin D mx m ⟨false, some 1, d, cc⟩ 1 rfl
  · exact handleData_nonfin D mx m ⟨false, some 2, d, cc⟩ 2 rfl

/-- Inserting a fin control frame after any prefix of message-silent frames
of the `_feed_data` loop: if no frame of the prefix emits a message and the
control frame does not error, the control frame's message is inserted right
after the prefix's (empty) output and the loop's error is unchanged. -/
theorem processFrames_ctrl_insert_gen (D : DecompSpec σ) (mx : Nat)
    (c : Nat) (q : Bytes) (hc : c = 8 ∨ c = 9 ∨ c = 10) (fs2 : List Frame) :
    ∀ (fs1 : List Frame),
    (∀ (m' : MsgSt σ), ∀ f ∈ fs1, (handleFrame D mx m' f).msgs = []) →
    ∀ (m : MsgSt σ),
    (handleFrame D mx m ⟨true, some c, q, some false⟩).err = none →
    (processFrames D mx m (fs1 ++ fs2)).err = none →
    (processFrames D mx m
        (fs1 ++ ⟨true, some c, q, some false⟩ :: fs2)).msgs =
      (handleFrame D mx m ⟨true, some c, q, some false⟩).msgs ++
        (processFrames D mx m (fs1 ++ fs2)).msgs ∧
    (processFrames D mx m
        (fs1 ++ ⟨true, some c, q, some false⟩ :: fs2)).err =
      (processFrames D mx m (fs1 ++ fs2)).err := by
  intro fs1
  induction fs1 with
  | nil =>
    intro _ m hCerr hbase
    rcases hs : handleFrame D mx m ⟨true, some c, q, some false⟩
      with ⟨mC, msC, errC⟩
    have hCm : mC = m := by
      have h := congrArg MStep.msg
        (handleFrame_ctrl D mx m m c q (some false) hc)
      rw [hs] at h
      exact h
    have hCm2 : m = mC := hCm.symm
    subst hCm2
    have herrC : errC = none := by rw [hs] at hCerr; exact hCerr
    subst herrC
    rcases hs2 : processFrames D mx m fs2 with ⟨m2, ms2, err2⟩
    constructor <;>
      simp only [List.nil_append, processFrames, hs, hs2] <;> simp
  | cons f fs1x ih =>
    intro h1 m hCerr hbase
    rcases hs1 : handleFrame D mx m f with ⟨m1, ms1, err1⟩
    have hms1 : ms1 = [] := by
      have h := h1 m f (List.mem_cons_self f fs1x)
      rw [hs1] at h
      exact h
    subst hms1
    cases err1 with
    | some e =>
      exfalso
      simp only [List.cons_append, processFrames, hs1] at hbase
      simp at hbase
    | none =>
      have hind := handleFrame_ctrl D mx m1 m c q (some false) hc
      have hCmsgs : (handleFrame D mx m1 ⟨true, some c, q, some false⟩).msgs =
          (handleFrame D mx m ⟨true, some c, q, some false⟩).msgs := by
        rw [hind]
      have hCerr1 : (handleFrame D mx m1
          ⟨true, some c, q, some false⟩).err = none := by
        rw [hind]
        exact hCerr
      have hbase1 : (processFrames D mx m1 (fs1x ++ fs2)).err = none := by
        simp only [List.cons_append, processFrames, hs1] at hbase
        simpa using hbase
      obtain ⟨ihm, ihe⟩ := ih
        (fun m' g hg => h1 m' g (List.mem_cons_of_mem f hg)) m1 hCerr1 hbase1
      constructor <;>
        simp only [List.cons_append, processFrames, hs1] <;>
        simp [ihm, ihe, hCmsgs]

/-- The continuation frames of a fragmented message whose remaining
fragments are `ds` (each fragment a (mask, payload) pair): every fragment is
an opcode-0 frame, and only the last has `fin` set. -/
def contFramesM : List (Bytes × Bytes) → List (Bool × Nat × Bytes × Bytes)
  | [] => []
  | d :: ds => (ds.isEmpty, 0, d.1, d.2) :: contFramesM ds

theorem contFramesM_append (ds1 ds2 : List (Bytes × Bytes)) (h : ds2 ≠ []) :
    contFramesM (ds1 ++ ds2) =
      ds1.map (fun d => (false, 0, d.1, d.2)) ++ contFramesM ds2 := by
  induction ds1 with
  | nil => simp [contFramesM]
  | cons d ds ih =>
    have he : (ds ++ ds2).isEmpty = false := by
      simp [List.isEmpty_iff, h]
    simp only [List.cons_append, contFramesM, List.append_eq, he, ih, List.map_cons]

theorem contFramesM_mem (ds : List (Bytes × Bytes)) :
    ∀ t ∈ contFramesM ds, t.2.1 = 0 ∧ (t.2.2.1, t.2.2.2) ∈ ds := by
  induction ds with
  | nil => intro t ht; cases ht
  | cons d ds ih =>
    intro t ht
    rcases List.mem_cons.mp ht with rfl | ht
    · exact ⟨rfl, by rw [Prod.mk.eta]; exact List.mem_cons_self d ds⟩
    · obtain ⟨h0, hm⟩ := ih t ht
      exact ⟨h0, List.mem_cons_of_mem d hm⟩

/-- C3 (amended): for an UNCOMPRESSED fragmented data message — a first
fragment with opcode text or binary followed by one or more continuation
fragments, the last one fin, each fragment masked or unmasked — with a fin
control frame (close, ping or pong, payload at most 125 bytes, masked or
unmasked) interleaved at ANY gap between the fragments, if the control
frame raises no error and the run without it raises no error, then the
interleaved run delivers the control frame's message followed by exactly
the messages of the plain run (in particular the reassembled data message,
with identical content), and raises no error. -/
theorem c3_amended (σ : Type) (D : DecompSpec σ) (mx : Nat) (cmp : Bool)
    (op c : Nat) (mk0 d0 mkc q : Bytes) (ds1 ds2 : List (Bytes × Bytes))
    (hop : op = 1 ∨ op = 2) (hc : c = 8 ∨ c = 9 ∨ c = 10)
    (hq : q.length ≤ 125) (hds2 : ds2 ≠ [])
    (hd0 : d0.length < 2 ^ 64) (hmk0 : mk0 = [] ∨ mk0.length = 4)
    (hmkc : mkc = [] ∨ mkc.length = 4)
    (hds : ∀ d ∈ ds1 ++ ds2, (d : Bytes × Bytes).2.length < 2 ^ 64 ∧
      (d.1 = [] ∨ d.1.length = 4))
    (hCerr : (handleFrame D mx (mkReader σ mx cmp).msg
      ⟨true, some c, q, some false⟩).err = none)
    (hbase : (runChunks D (mkReader σ mx cmp)
      [encFramesM ((false, op, mk0, d0) ::
        contFramesM (ds1 ++ ds2))]).sinkExc = none) :
    (runChunks D (mkReader σ mx cmp)
        [encFramesM ((false, op, mk0, d0) ::
          (ds1.map (fun d => (false, 0, d.1, d.2)) ++
            (true, c, mkc, q) :: contFramesM ds2))]).msgs =
      (handleFrame D mx (mkReader σ mx cmp).msg
          ⟨true, some c, q, some false⟩).msgs ++
        (runChunks D (mkReader σ mx cmp)
          [encFramesM ((false, op, mk0, d0) ::
            contFramesM (ds1 ++ ds2))]).msgs ∧
    (runChunks D (mkReader σ mx cmp)
        [encFramesM ((false, op, mk0, d0) ::
          (ds1.map (fun d => (false, 0, d.1, d.2)) ++
            (true, c, mkc, q) :: contFramesM ds2))]).sinkExc = none := by
  have h64 : (2 : Nat) ^ 64 = 18446744073709551616 := by norm_num
  have hvF0 : (op ≤ 15 ∧ ¬ op > 7 ∧
      d0.length < 2 ^ 64 ∧ (mk0 = [] ∨ mk0.length = 4)) := by
    exact ⟨by rcases hop with h | h <;> omega,
      by rcases hop with h1 | h1 <;> omega, hd0, hmk0⟩
  have hvcont : ∀ ds' : List (Bytes × Bytes), (∀ d ∈ ds', ((d : Bytes × Bytes).2.length < 2 ^ 64 ∧
      (d.1 = [] ∨ d.1.length = 4))) →
      ∀ f ∈ contFramesM ds', f.2.1 ≤ 15 ∧ (f.2.1 > 7 → f.1 = true ∧
        f.2.2.2.length ≤ 125) ∧ f.2.2.2.length < 2 ^ 64 ∧
        (f.2.2.1 = [] ∨ f.2.2.1.length = 4) := by
    intro ds' hds' f hf
    obtain ⟨h0, hm⟩ := contFramesM_mem ds' f hf
    have hd := hds' _ hm
    exact ⟨by omega, fun h => absurd h (by omega), hd.1, hd.2⟩
  have hv0 : ∀ f ∈ (false, op, mk0, d0) :: contFramesM (ds1 ++ ds2),
      f.2.1 ≤ 15 ∧ (f.2.1 > 7 → f.1 = true ∧ f.2.2.2.length ≤ 125) ∧
      f.2.2.2.length < 2 ^ 64 ∧ (f.2.2.1 = [] ∨ f.2.2.1.length = 4) := by
    intro f hf
    rcases List.mem_cons.mp hf with rfl | hf
    · exact ⟨hvF0.1, fun h => absurd h hvF0.2.1, hvF0.2.2.1, hvF0.2.2.2⟩
    · exact hvcont (ds1 ++ ds2) hds f hf
  have hv1 : ∀ f ∈ (false, op, mk0, d0) ::
      (ds1.map (fun d => (false, 0, d.1, d.2)) ++
        (true, c, mkc, q) :: contFramesM ds2),
      f.2.1 ≤ 15 ∧ (f.2.1 > 7 → f.1 = true ∧ f.2.2.2.length ≤ 125) ∧
      f.2.2.2.length < 2 ^ 64 ∧ (f.2.2.1 = [] ∨ f.2.2.1.length = 4) := by
    intro f hf
    rcases List.mem_cons.mp hf with rfl | hf
    · exact ⟨hvF0.1, fun h => absurd h hvF0.2.1, hvF0.2.2.1, hvF0.2.2.2⟩
    rcases List.mem_append.mp hf with hf | hf
    · obtain ⟨d, hd1, rfl⟩ := List.mem_map.mp hf
      have hd := hds d (List.mem_append.mpr (Or.inl hd1))
      exact ⟨show (0 : Nat) ≤ 15 from by omega,
        fun h => absurd (show (0 : Nat) > 7 from h) (by omega), hd.1, hd.2⟩
    rcases List.mem_cons.mp hf with rfl | hf
    · exact ⟨show c ≤ 15 from by rcases hc with h | h | h <;> omega,
        fun _ => ⟨rfl, hq⟩, show q.length < 2 ^ 64 from by omega, hmkc⟩
    · exact hvcont ds2 (fun d hd => hds d (List.mem_append.mpr (Or.inr hd)))
        f hf
  obtain ⟨p0, heq0, -, -, -⟩ := ploop_encFramesM
    ((false, op, mk0, d0) :: contFramesM (ds1 ++ ds2))
    { (mkReader σ mx cmp).parse with tail := [] } rfl rfl (Or.inl rfl) hv0
  obtain ⟨p1, heq1, -, -, -⟩ := ploop_encFramesM
    ((false, op, mk0, d0) :: (ds1.map (fun d => (false, 0, d.1, d.2)) ++
      (true, c, mkc, q) :: contFramesM ds2))
    { (mkReader σ mx cmp).parse with tail := [] } rfl rfl (Or.inl rfl) hv1
  have hp0 : parseFrame (mkReader σ mx cmp).parse
      (encFramesM ((false, op, mk0, d0) :: contFramesM (ds1 ++ ds2))) =
      ({ p0 with tail := [] }, .ok
        (((false, op, mk0, d0) :: contFramesM (ds1 ++ ds2)).map
          (fun f => ⟨f.1, some f.2.1, f.2.2.2, some false⟩))) := by
    simp only [parseFrame]
    rw [show (mkReader σ mx cmp).parse.tail ++
      encFramesM ((false, op, mk0, d0) :: contFramesM (ds1 ++ ds2)) =
      encFramesM ((false, op, mk0, d0) :: contFramesM (ds1 ++ ds2)) from rfl]
    rw [heq0]
  have hp1 : parseFrame (mkReader σ mx cmp).parse
      (encFramesM ((false, op, mk0, d0) ::
        (ds1.map (fun d => (false, 0, d.1, d.2)) ++
          (true, c, mkc, q) :: contFramesM ds2))) =
      ({ p1 with tail := [] }, .ok
        (((false, op, mk0, d0) :: (ds1.map (fun d => (false, 0, d.1, d.2)) ++
          (true, c, mkc, q) :: contFramesM ds2)).map
          (fun f => ⟨f.1, some f.2.1, f.2.2.2, some false⟩))) := by
    simp only [parseFrame]
    rw [show (mkReader σ mx cmp).parse.tail ++
      encFramesM ((false, op, mk0, d0) ::
        (ds1.map (fun d => (false, 0, d.1, d.2)) ++
          (true, c, mkc, q) :: contFramesM ds2)) =
      encFramesM ((false, op, mk0, d0) ::
        (ds1.map (fun d => (false, 0, d.1, d.2)) ++
          (true, c, mkc, q) :: contFramesM ds2)) from rfl]
    rw [heq1]
  obtain ⟨hm0, he0⟩ := runChunks_single_ok D (mkReader σ mx cmp) _ _ _ rfl hp0
  obtain ⟨hm1, he1⟩ := runChunks_single_ok D (mkReader σ mx cmp) _ _ _ rfl hp1
  have hmap0 : ((false, op, mk0, d0) :: contFramesM (ds1 ++ ds2)).map
      (fun f => (⟨f.1, some f.2.1, f.2.2.2, some false⟩ : Frame)) =
      (Frame.mk false (some op) d0 (some false) ::
        ds1.map (fun d => Frame.mk false (some 0) d.2 (some false))) ++
      (contFramesM ds2).map
        (fun f => ⟨f.1, some f.2.1, f.2.2.2, some false⟩) := by
    rw [contFramesM_append ds1 ds2 hds2]
    simp [List.map_append, List.map_map, Function.comp]
  have hmap1 : ((false, op, mk0, d0) ::
      (ds1.map (fun d => (false, 0, d.1, d.2)) ++
        (true, c, mkc, q) :: contFramesM ds2)).map
      (fun f => (⟨f.1, some f.2.1, f.2.2.2, some false⟩ : Frame)) =
      (Frame.mk false (some op) d0 (some false) ::
        ds1.map (fun d => Frame.mk false (some 0) d.2 (some false))) ++
      Frame.mk true (some c) q (some false) ::
        (contFramesM ds2).map
          (fun f => ⟨f.1, some f.2.1, f.2.2.2, some false⟩) := by
    simp [List.map_append, List.map_map, Function.comp]
  rw [hmap0] at hm0 he0
  rw [hmap1] at hm1 he1
  have h1 : ∀ (m' : MsgSt σ), ∀ f ∈ (Frame.mk false (some op) d0 (some false) ::
      ds1.map (fun d => Frame.mk false (some 0) d.2 (some false))),
      (handleFrame D (mkReader σ mx cmp).maxMsgSize m' f).msgs = [] := by
    intro m' f hf
    rcases List.mem_cons.mp hf with rfl | hf
    · exact handleFrame_nonfin_data D (mkReader σ mx cmp).maxMsgSize m' op d0
        (some false) (Or.inr hop)
    · obtain ⟨d, hd1, rfl⟩ := List.mem_map.mp hf
      exact handleFrame_nonfin_data D (mkReader σ mx cmp).maxMsgSize m' 0 d.2
        (some false) (Or.inl rfl)
  obtain ⟨hins_m, hins_e⟩ := processFrames_ctrl_insert_gen D
    (mkReader σ mx cmp).maxMsgSize c q hc
    ((contFramesM ds2).map (fun f => ⟨f.1, some f.2.1, f.2.2.2, some false⟩))
    (Frame.mk false (some op) d0 (some false) ::
      ds1.map (fun d => Frame.mk false (some 0) d.2 (some false)))
    h1 (mkReader σ mx cmp).msg hCerr (by rw [← he0]; exact hbase)
  constructor
  · rw [hm1, hm0, hins_m]
    rfl
  · rw [he1, hins_e, ← he0]
    exact hbase

/-- C3 witness: concrete instance of the amended theorem — a binary message
of three fragments `[1]`, `[2]` (masked with key `[5,6,7,8]`), `[3]`, with
a masked empty ping (key `[9,10,11,12]`) interleaved after the second
fragment, no size limit, no compression. -/
theorem c3_witness :
    ((handleFrame dUnit 0 (mkReader Unit 0 false).msg
        ⟨true, some 9, [], some false⟩).err = none ∧
      (runChunks dUnit (mkReader Unit 0 false)
        [encFramesM ((false, 2, [], [1]) ::
          contFramesM ([([5, 6, 7, 8], [2])] ++ [([], [3])]))]).sinkExc =
        none) ∧
    (runChunks dUnit (mkReader Unit 0 false)
        [encFramesM ((false, 2, [], [1]) ::
          ([([5, 6, 7, 8], [2])].map (fun d => (false, 0, d.1, d.2)) ++
            (true, 9, [9, 10, 11, 12], []) :: contFramesM [([], [3])]))]).msgs =
      (handleFrame dUnit 0 (mkReader Unit 0 false).msg
          ⟨true, some 9, [], some false⟩).msgs ++
        (runChunks dUnit (mkReader Unit 0 false)
          [encFramesM ((false, 2, [], [1]) ::
            contFramesM ([([5, 6, 7, 8], [2])] ++ [([], [3])]))]).msgs ∧
    (runChunks dUnit (mkReader Unit 0 false)
        [encFramesM ((false, 2, [], [1]) ::
          ([([5, 6, 7, 8], [2])].map (fun d => (false, 0, d.1, d.2)) ++
            (true, 9, [9, 10, 11, 12], []) ::
              contFramesM [([], [3])]))]).sinkExc = none :=
  ⟨⟨by decide, by decide⟩,
    c3_amended Unit dUnit 0 false 2 9 [] [1] [9, 10, 11, 12] []
      [([5, 6, 7, 8], [2])] [([], [3])]
      (Or.inr rfl) (Or.inr (Or.inl rfl)) (by decide) (by decide) (by decide)
      (by decide) (by decide) (by decide) (by decide) (by decide)⟩

end WSReader